import Mathlib

/-!
Shallow embedding of the bank-statement processing backend: the
validation/normalization library (`src/validators`), the job store and its
status state machine (`src/services/jobManager.js`), the processing pipeline
orchestrator (`src/controllers/processingController.js`), the cleanup service
(`src/services/cleanupService.js`) and the result sanitizer
(`src/controllers/resultsController.js`), together with proofs about them.
-/

namespace Bank

/-- JavaScript runtime values, shallowly embedded: enough structure for the
validation, sanitization and store layers of this code base. Numbers are
modeled as exact rationals together with the special values NaN and
Infinity; none of the properties proved here depends on IEEE-754 rounding. -/
inductive JSVal : Type where
  | undefined : JSVal
  | null : JSVal
  | bool : Bool → JSVal
  | num : ℚ → JSVal
  | nan : JSVal
  | inf : Bool → JSVal
  | str : String → JSVal
  | arr : List JSVal → JSVal
  | obj : List (String × JSVal) → JSVal
  deriving Repr

/-- Reading a property of a JS object: first binding wins, a missing key reads
as `undefined` (as in JS). Non-objects are not handled here; callers pattern
match on `obj` first. -/
def getF (fields : List (String × JSVal)) (key : String) : JSVal :=
  match fields with
  | [] => .undefined
  | (k, v) :: rest => if k = key then v else getF rest key

/-- Property assignment `o[key] = v` on a JS object: overwrite the first
binding for the key, or append a fresh binding when the key is absent. -/
def setF (fields : List (String × JSVal)) (key : String) (v : JSVal) :
    List (String × JSVal) :=
  match fields with
  | [] => [(key, v)]
  | (k, w) :: rest => if k = key then (k, v) :: rest else (k, w) :: setF rest key v

/-- JS truthiness of a value. -/
def truthy : JSVal → Bool
  | .undefined => false
  | .null => false
  | .bool b => b
  | .num q => q ≠ 0
  | .nan => false
  | .inf _ => true
  | .str s => s ≠ ""
  | .arr _ => true
  | .obj _ => true

/-- The result shape `{ isValid, error?, value? }` used throughout the
validator library: either a value or a failure message. -/
inductive VRes (α : Type) : Type where
  | ok : α → VRes α
  | err : String → VRes α
  deriving Repr, DecidableEq

def VRes.isValid {α : Type} : VRes α → Bool
  | .ok _ => true
  | .err _ => false

def VRes.errMsg {α : Type} : VRes α → Option String
  | .ok _ => none
  | .err e => some e

/-! ## Proleptic Gregorian calendar arithmetic

`new Date(year, month, day)` in JS normalizes out-of-range month/day
components by rolling them over into neighbouring months and years; the
conversions below (days since the epoch 1970-01-01 at local midnight, and
back to civil year/month/day) model exactly that arithmetic. -/

def isLeap (y : ℤ) : Bool := (y % 4 == 0 && y % 100 != 0) || (y % 400 == 0)

def daysInMonth (y : ℤ) (m : ℕ) : ℕ :=
  if m = 2 then (if isLeap y then 29 else 28)
  else if m = 4 ∨ m = 6 ∨ m = 9 ∨ m = 11 then 30
  else 31

/-- Day count since 1970-01-01 of the civil date `(y, m, d)` with
`1 ≤ m ≤ 12`; Howard Hinnant's algorithm. -/
def daysFromCivil (y : ℤ) (m d : ℕ) : ℤ :=
  let y' : ℤ := if m ≤ 2 then y - 1 else y
  let era : ℤ := Int.fdiv y' 400
  let yoe : ℤ := y' - era * 400
  let mp : ℤ := ((m : ℤ) + 9) % 12
  let doy : ℤ := (153 * mp + 2) / 5 + (d : ℤ) - 1
  let doe : ℤ := yoe * 365 + yoe / 4 - yoe / 100 + doy
  era * 146097 + doe - 719468

/-- Inverse of `daysFromCivil`: civil year/month/day of a day count. -/
def civilFromDays (z0 : ℤ) : ℤ × ℕ × ℕ :=
  let z : ℤ := z0 + 719468
  let era : ℤ := Int.fdiv z 146097
  let doe : ℤ := z - era * 146097
  let yoe : ℤ := (doe - doe / 1460 + doe / 36524 - doe / 146096) / 365
  let y : ℤ := yoe + era * 400
  let doy : ℤ := doe - (365 * yoe + yoe / 4 - yoe / 100)
  let mp : ℤ := (5 * doy + 2) / 153
  let d : ℤ := doy - (153 * mp + 2) / 5 + 1
  let m : ℤ := if mp < 10 then mp + 3 else mp - 9
  (if m ≤ 2 then y + 1 else y, m.toNat, d.toNat)

/-- The day count denoted by `new Date(yy, m0, d)`: a first argument between
0 and 99 means 1900 + yy, and month/day components roll over freely
(month index `m0` is zero-based, as in JS). -/
def jsDateFromYMD (yy m0 d : ℤ) : ℤ :=
  let yEff : ℤ := if 0 ≤ yy ∧ yy ≤ 99 then yy + 1900 else yy
  let ym : ℤ := yEff * 12 + m0
  let y2 : ℤ := Int.fdiv ym 12
  let m2 : ℤ := Int.emod ym 12
  daysFromCivil y2 (m2.toNat + 1) 1 + (d - 1)

/-- Models `String(n).padStart(2, "0")` for the month/day components. -/
def pad2 (n : ℕ) : String := if n < 10 then "0" ++ toString n else toString n

/-- The `${year}-${month}-${day}` ISO formatting performed at the end of
`validateAndFormatDate` (year unpadded, month and day padded to 2). -/
def formatCivil (c : ℤ × ℕ × ℕ) : String :=
  toString c.1 ++ "-" ++ pad2 c.2.1 ++ "-" ++ pad2 c.2.2

def formatDays (z : ℤ) : String := formatCivil (civilFromDays z)

/-! ## validateAndFormatDate (src/validators, `validateAndFormatDate`) -/

def digitsToNat (cs : List Char) : ℕ :=
  cs.foldl (fun acc c => acc * 10 + (c.toNat - 48)) 0

/-- Split a character list on a separator (like `String.split`, keeping
empty groups). -/
def splitOn (sep : Char) : List Char → List (List Char)
  | [] => [[]]
  | c :: rest =>
    let r := splitOn sep rest
    if c = sep then [] :: r
    else
      match r with
      | g :: gs => (c :: g) :: gs
      | [] => [[c]]

/-- A group matching `\d{1,2}`. -/
def digits12 (cs : List Char) : Bool :=
  (cs.length = 1 || cs.length = 2) && cs.all (·.isDigit)

/-- A group matching `\d{4}`. -/
def digits4 (cs : List Char) : Bool := cs.length = 4 && cs.all (·.isDigit)

/-- Match `^(\d{1,2})sep(\d{1,2})sep(\d{4})$` and return the three groups as
numbers `(first, second, year)`. -/
def matchD12D12Y (sep : Char) (s : String) : Option (ℕ × ℕ × ℕ) :=
  match splitOn sep s.toList with
  | [a, b, c] =>
    if digits12 a && digits12 b && digits4 c then
      some (digitsToNat a, digitsToNat b, digitsToNat c)
    else none
  | _ => none

/-- Match `^(\d{4})\/(\d{1,2})\/(\d{1,2})$` and return `(year, month, day)`. -/
def matchYMD (s : String) : Option (ℕ × ℕ × ℕ) :=
  match splitOn '/' s.toList with
  | [a, b, c] =>
    if digits4 a && digits12 b && digits12 c then
      some (digitsToNat a, digitsToNat b, digitsToNat c)
    else none
  | _ => none

/-- The `commonFormats` loop of `validateAndFormatDate`: try the four
regexes in order and build the JS `Date` from the captured groups — day
first for the slash/dash/dot forms, `new Date(y, m - 1, d)` throughout.
Returns the day count of the constructed date. -/
def tryCommonFormats (s : String) : Option ℤ :=
  match matchD12D12Y '/' s with
  | some (d, m, y) => some (jsDateFromYMD (y : ℤ) ((m : ℤ) - 1) (d : ℤ))
  | none =>
  match matchD12D12Y '-' s with
  | some (d, m, y) => some (jsDateFromYMD (y : ℤ) ((m : ℤ) - 1) (d : ℤ))
  | none =>
  match matchYMD s with
  | some (y, m, d) => some (jsDateFromYMD (y : ℤ) ((m : ℤ) - 1) (d : ℤ))
  | none =>
  match matchD12D12Y '.' s with
  | some (d, m, y) => some (jsDateFromYMD (y : ℤ) ((m : ℤ) - 1) (d : ℤ))
  | none => none

/-- The pattern `^\d{4}-\d{2}-\d{2}$`. -/
def isoShape (s : String) : Bool :=
  match s.toList with
  | [a, b, c, d, h1, e, f, h2, g, i] =>
    a.isDigit && b.isDigit && c.isDigit && d.isDigit && h1 = '-' &&
    e.isDigit && f.isDigit && h2 = '-' && g.isDigit && i.isDigit
  | _ => false

/-- Assuming `isoShape`, the numeric `(year, month, day)` components. -/
def isoComponents (s : String) : ℕ × ℕ × ℕ :=
  match s.toList with
  | [a, b, c, d, _, e, f, _, g, i] =>
    (digitsToNat [a, b, c, d], digitsToNat [e, f], digitsToNat [g, i])
  | _ => (0, 0, 0)

/-- In JS, `new Date("YYYY-MM-DD")` yields a valid time value exactly when the
components form a real proleptic-Gregorian calendar date (the ECMAScript
date-time string parser range-checks month and day). -/
def isoReal (s : String) : Bool :=
  let c := isoComponents s
  1 ≤ c.2.1 && c.2.1 ≤ 12 && 1 ≤ c.2.2 && c.2.2 ≤ daysInMonth (c.1 : ℤ) c.2.1

/-- Models `validateAndFormatDate` from the validator library. The final
`new Date(dateValue)` fallback for strings matching none of the accepted
patterns is implementation-defined string parsing in JS; it is taken as a
parameter `fb` (returning the parsed local-time day count, or `none` for an
invalid date), and every theorem proved below holds for all `fb`. -/
def validateAndFormatDate (fb : String → Option ℤ) : JSVal → VRes (Option String)
  | .null => .ok none
  | .undefined => .ok none
  | .str s =>
    if isoShape s then
      if isoReal s then .ok (some s) else .err "Invalid date value"
    else
      match tryCommonFormats s with
      | some dn => .ok (some (formatDays dn))
      | none =>
        match fb s with
        | some dn => .ok (some (formatDays dn))
        | none => .err "Unable to parse date value"
  | _ => .err "Date must be a string or null"

/-! ## validateMonetaryAmount (src/validators, `validateMonetaryAmount`) -/

/-- Result of JS `parseFloat`: NaN, a signed Infinity, or a finite value
(modeled as an exact rational; no claim depends on float rounding). -/
inductive JSNum : Type where
  | nan : JSNum
  | inf : Bool → JSNum
  | fin : ℚ → JSNum
  deriving Repr, DecidableEq

/-- Whether the first list leads (starts) the second. -/
def listLeads : List Char → List Char → Bool
  | [], _ => true
  | _ :: _, [] => false
  | a :: as, b :: bs => a = b && listLeads as bs

/-- Longest leading run of decimal digits, returned with the rest. -/
def spanDigits (cs : List Char) : List Char × List Char :=
  match cs with
  | [] => ([], [])
  | c :: rest =>
    if c.isDigit then
      let p := spanDigits rest
      (c :: p.1, p.2)
    else ([], cs)

/-- Mantissa denoted by integer digits `ip` and fraction digits `fp`. -/
def mantissaOf (ip fp : List Char) : ℚ :=
  (digitsToNat ip : ℚ) + (digitsToNat fp : ℚ) / ((10 : ℚ) ^ fp.length)

/-- Exponent part: consumed only when at least one digit follows
`e`/`E` (with optional sign), as in `parseFloat`. -/
def parseExponent (cs : List Char) : ℤ :=
  match cs with
  | 'e' :: rest | 'E' :: rest =>
    match rest with
    | '+' :: ds => if (spanDigits ds).1 ≠ [] then (digitsToNat (spanDigits ds).1 : ℤ) else 0
    | '-' :: ds => if (spanDigits ds).1 ≠ [] then -(digitsToNat (spanDigits ds).1 : ℤ) else 0
    | ds => if (spanDigits ds).1 ≠ [] then (digitsToNat (spanDigits ds).1 : ℤ) else 0
  | _ => 0

def applyExp (q : ℚ) (e : ℤ) : ℚ :=
  if 0 ≤ e then q * (10 : ℚ) ^ e.toNat else q / (10 : ℚ) ^ (-e).toNat

/-- Unsigned numeric prefix: digits, optional point, optional exponent;
`none` when no digit is found on either side of the point. Accepts the
literal `Infinity` as `parseFloat` does. -/
def parseFloatBody (cs : List Char) : Option JSNum :=
  if listLeads ['I', 'n', 'f', 'i', 'n', 'i', 't', 'y'] cs then some (.inf false)
  else
    let ip := (spanDigits cs).1
    let rest1 := (spanDigits cs).2
    match rest1 with
    | '.' :: afterPoint =>
      let fp := (spanDigits afterPoint).1
      let rest2 := (spanDigits afterPoint).2
      if ip = [] ∧ fp = [] then none
      else some (.fin (applyExp (mantissaOf ip fp) (parseExponent rest2)))
    | _ =>
      if ip = [] then none
      else some (.fin (applyExp (mantissaOf ip []) (parseExponent rest1)))

/-- JS `parseFloat` on a string with no leading whitespace (the caller has
already stripped all whitespace). -/
def parseFloatJS (s : String) : JSNum :=
  match s.toList with
  | '+' :: rest => (parseFloatBody rest).getD .nan
  | '-' :: rest =>
    match parseFloatBody rest with
    | some (.fin q) => .fin (-q)
    | some (.inf _) => .inf true
    | _ => .nan
  | cs => (parseFloatBody cs).getD .nan

/-- The character class `[$£€¥₹,\s()]` stripped by `validateMonetaryAmount`
before parsing (the two `replace` calls plus the no-op `trim`). -/
def strippedChar (c : Char) : Bool :=
  c = '$' || c = '£' || c = '€' || c = '¥' || c = '₹' || c = ',' ||
  c.isWhitespace || c = '(' || c = ')'

def cleanAmountStr (s : String) : String :=
  String.mk (s.toList.filter (fun c => !(strippedChar c)))

/-- Models `validateMonetaryAmount`: null/undefined pass through as null, numbers
must be finite, strings are stripped of currency decoration and parsed,
everything else is a type error. A successful result is null or a number. -/
def validateMonetaryAmount : JSVal → VRes (Option ℚ)
  | .null => .ok none
  | .undefined => .ok none
  | .num q => .ok (some q)
  | .nan => .err "Monetary amount must be a finite number"
  | .inf _ => .err "Monetary amount must be a finite number"
  | .str s =>
    let clean := cleanAmountStr s
    if clean = "" then .ok none
    else
      match parseFloatJS clean with
      | .fin q => .ok (some q)
      | _ => .err "Unable to convert monetary amount to valid number"
  | _ => .err "Monetary amount must be a number, string, or null"

/-! ## Transaction validation (src/validators) -/

/-- Models `validateDebitCreditExclusivity`: fails when debit and credit are both
present (neither null nor undefined) on the transaction object. -/
def presentF : JSVal → Bool
  | .null => false
  | .undefined => false
  | _ => true

def validateDebitCreditExclusivity (t : JSVal) : VRes Unit :=
  match t with
  | .obj fields =>
    let hasDebit := presentF (getF fields "debit")
    let hasCredit := presentF (getF fields "credit")
    if hasDebit && hasCredit then
      .err "Transaction cannot have both debit and credit values populated"
    else .ok ()
  | _ => .err "Transaction must be an object"

/-- The JS value written back by a date normalization (`null` or the
formatted string). -/
def jsOfOptStr : Option String → JSVal
  | none => .null
  | some s => .str s

/-- The JS value written back by an amount normalization (`null` or the
number). -/
def jsOfOptNum : Option ℚ → JSVal
  | none => .null
  | some q => .num q

/-- The description check of `validateTransaction`:
`!transaction.description || typeof transaction.description !== "string"`
fails, i.e. the field must be a truthy string. -/
def descriptionOk (v : JSVal) : Bool :=
  match v with
  | .str s => s ≠ ""
  | _ => false

/-- One normalize-and-assign step of `validateTransaction` for a monetary
field: on success the field is overwritten with the normalized value, on
failure an error is recorded and the field is left as it was. -/
def amountStep (fields : List (String × JSVal)) (key : String) (label : String) :
    List String × List (String × JSVal) :=
  match validateMonetaryAmount (getF fields key) with
  | .ok v => ([], setF fields key (jsOfOptNum v))
  | .err e => ([label ++ " validation failed: " ++ e], fields)

/-- The date normalize-and-assign step of `validateTransaction`. -/
def dateStep (fb : String → Option ℤ) (fields : List (String × JSVal)) :
    List String × List (String × JSVal) :=
  match validateAndFormatDate fb (getF fields "date") with
  | .ok v => ([], setF fields "date" (jsOfOptStr v))
  | .err e => (["Date validation failed: " ++ e], fields)

/-- The description check of `validateTransaction` (no assignment). -/
def descStep (fields : List (String × JSVal)) : List String :=
  if descriptionOk (getF fields "description") then []
  else ["Description must be a non-empty string"]

/-- The final exclusivity check of `validateTransaction` (runs on the fields
as mutated by the preceding steps). -/
def exclStep (fields : List (String × JSVal)) : List String :=
  match validateDebitCreditExclusivity (.obj fields) with
  | .ok _ => []
  | .err e => [e]

/-- The body of `validateTransaction` on an object: the accumulated error
list and the final (mutated) fields. -/
def vtCore (fb : String → Option ℤ) (fields0 : List (String × JSVal)) :
    List String × List (String × JSVal) :=
  let s1 := dateStep fb fields0
  let s2 := amountStep s1.2 "debit" "Debit"
  let s3 := amountStep s2.2 "credit" "Credit"
  let s4 := amountStep s3.2 "balance" "Balance"
  (s1.1 ++ descStep s1.2 ++ s2.1 ++ s3.1 ++ s4.1 ++ exclStep s4.2, s4.2)

/-- Models `validateTransaction`: normalizes date, description, debit, credit,
balance and then checks exclusivity, accumulating all failure messages. The
source normalizes IN PLACE (each step assigns back into the argument
object), so the embedding returns both the result and the post-state of the
argument; on success the returned value is that (mutated) object. -/
def validateTransaction (fb : String → Option ℤ) (t : JSVal) :
    VRes JSVal × JSVal :=
  match t with
  | .obj fields0 =>
    let c := vtCore fb fields0
    if c.1 = [] then (.ok (.obj c.2), .obj c.2)
    else (.err (String.intercalate "; " c.1), .obj c.2)
  | other => (.err "Transaction must be an object", other)

/-- Models `validateAccountTransactions`: maps `validateTransaction` over the
array, collecting indexed errors; the element objects are mutated in place,
so the post-state of the array is returned alongside the result. -/
def validateTransactionsList (fb : String → Option ℤ) (idx : ℕ) :
    List JSVal → List String × List JSVal × List JSVal
  | [] => ([], [], [])
  | t :: rest =>
    let r := validateTransaction fb t
    let tail := validateTransactionsList fb (idx + 1) rest
    match r.1 with
    | .ok v => (tail.1, v :: tail.2.1, r.2 :: tail.2.2)
    | .err e =>
      (("Transaction " ++ toString idx ++ ": " ++ e) :: tail.1, tail.2.1,
        r.2 :: tail.2.2)

def validateAccountTransactions (fb : String → Option ℤ) (v : JSVal) :
    VRes JSVal × JSVal :=
  match v with
  | .arr ts =>
    let step := validateTransactionsList fb 0 ts
    if step.1 = [] then (.ok (.arr step.2.1), .arr step.2.2)
    else (.err (String.intercalate "; " step.1), .arr step.2.2)
  | other => (.err "Transactions must be an array", other)

/-! ## Job store and status state machine (src/services/jobManager.js) -/

inductive JobStatus : Type where
  | uploaded : JobStatus
  | processing : JobStatus
  | processed : JobStatus
  | failed : JobStatus
  deriving Repr, DecidableEq

/-- The string constants of the `JobStatus` enum in src/types. -/
def JobStatus.toStr : JobStatus → String
  | .uploaded => "uploaded"
  | .processing => "processing"
  | .processed => "processed"
  | .failed => "failed"

/-- The Job model of src/types. Timestamps are epoch milliseconds. The
processed-data payload is a JS value (JS `null` when absent). -/
structure Job : Type where
  jobId : String
  fileName : String
  s3Key : String
  status : JobStatus
  accountsDetected : Option ℤ := none
  processedData : JSVal := .null
  errorMessage : Option String := none
  createdAt : ℤ
  updatedAt : ℤ
  deriving Repr

/-- The JobManager `jobs` map: insertion-ordered key/value pairs. -/
abbrev Store : Type := List (String × Job)

def storeGet (st : Store) (jobId : String) : Option Job :=
  match st with
  | [] => none
  | (k, j) :: rest => if k = jobId then some j else storeGet rest jobId

/-- Models `jobs.set(jobId, job)`: overwrite an existing key, append a new one. -/
def storeSet (st : Store) (jobId : String) (job : Job) : Store :=
  match st with
  | [] => [(jobId, job)]
  | (k, j) :: rest =>
    if k = jobId then (k, job) :: rest else (k, j) :: storeSet rest jobId job

/-- Models `jobs.delete(jobId)`: the map without the key, and whether it was there. -/
def storeDelete (st : Store) (jobId : String) : Store × Bool :=
  match st with
  | [] => ([], false)
  | (k, j) :: rest =>
    if k = jobId then (rest, true)
    else
      let r := storeDelete rest jobId
      ((k, j) :: r.1, r.2)

/-- The `validTransitions` table of `_validateStatusTransition`. -/
def validTransitions : JobStatus → List JobStatus
  | .uploaded => [.processing, .failed]
  | .processing => [.processed, .failed]
  | .processed => []
  | .failed => []

/-- The error message thrown by `_validateStatusTransition`. -/
def transitionErrMsg (current new : JobStatus) : String :=
  "Invalid status transition from " ++ current.toStr ++ " to " ++ new.toStr ++
  ". Allowed transitions: " ++
  (if validTransitions current = [] then "none (terminal state)"
   else String.intercalate ", " ((validTransitions current).map JobStatus.toStr))

/-- The optional `additionalData` argument of `updateJobStatus`: a field set
to `some v` is present (`!== undefined`) and gets written onto the job. -/
structure AdditionalData : Type where
  accountsDetected : Option ℤ := none
  processedData : Option JSVal := none
  errorMessage : Option String := none

/-- The mutation performed by `updateJobStatus` once all checks passed. -/
def applyUpdate (job : Job) (now : ℤ) (status : JobStatus)
    (extra : AdditionalData) : Job :=
  { job with
    status := status
    updatedAt := now
    accountsDetected :=
      match extra.accountsDetected with
      | some v => some v
      | none => job.accountsDetected
    processedData := extra.processedData.getD job.processedData
    errorMessage :=
      match extra.errorMessage with
      | some m => some m
      | none => job.errorMessage }

/-- Models `updateJobStatus`: checks the id, the job's existence and the status
transition, then applies the update; any thrown error is wrapped in
`Failed to update job status: ...`. The attempted status is one of the
recognized enum values (a string outside the enum is rejected even earlier
by a membership check on `Object.values(JobStatus)`). -/
def updateJobStatus (st : Store) (now : ℤ) (jobId : String)
    (status : JobStatus) (extra : AdditionalData) : Except String Store :=
  if jobId = "" then
    .error "Failed to update job status: jobId is required and must be a string"
  else
    match storeGet st jobId with
    | none => .error ("Failed to update job status: Job not found: " ++ jobId)
    | some job =>
      if status ∈ validTransitions job.status then
        .ok (storeSet st jobId (applyUpdate job now status extra))
      else .error ("Failed to update job status: " ++ transitionErrMsg job.status status)

/-- The store an update call leaves behind: the new store on success, the
untouched store when the call threw (the transition guard runs before any
mutation). -/
def effectiveStore (r : Except String Store) (st : Store) : Store :=
  match r with
  | .ok st' => st'
  | .error _ => st

/-- Models `getJobResult`: retrieves the job (a copy of the record; the aliasing
of the nested `processedData` reference is studied separately in the heap
model below). -/
def getJobResult (st : Store) (jobId : String) : Except String Job :=
  if jobId = "" then
    .error "Failed to get job result: jobId is required and must be a string"
  else
    match storeGet st jobId with
    | none => .error ("Failed to get job result: Job not found: " ++ jobId)
    | some job => .ok job

/-- Models `getAllJobs`: copies of all jobs, in insertion order. -/
def getAllJobs (st : Store) : List Job := st.map (·.2)

/-- Models `deleteJob`: errors on an empty id, otherwise removes the entry and
reports whether a deletion happened. -/
def deleteJob (st : Store) (jobId : String) : Except String (Store × Bool) :=
  if jobId = "" then
    .error "Failed to delete job: jobId is required and must be a string"
  else .ok (storeDelete st jobId)

/-! ## Pipeline orchestrator (src/controllers/processingController.js) -/

/-- A human-readable rendering of a JS value, used only inside thrown error
message text (template-literal interpolation). -/
def jsDisplay : JSVal → String
  | .undefined => "undefined"
  | .null => "null"
  | .bool b => if b then "true" else "false"
  | .num q => toString q
  | .nan => "NaN"
  | .inf neg => if neg then "-Infinity" else "Infinity"
  | .str s => s
  | .arr _ => "[array]"
  | .obj _ => "[object Object]"

/-- The account-level monetary field normalization inside
`_validateNormalizedData`: fields equal to null/undefined are skipped,
others must validate and are assigned back. -/
def accountAmountField (idx : ℕ) (field : String)
    (afs : List (String × JSVal)) : Except String (List (String × JSVal)) :=
  if presentF (getF afs field) then
    match validateMonetaryAmount (getF afs field) with
    | .ok v => .ok (setF afs field (jsOfOptNum v))
    | .err e =>
      .error ("Account " ++ toString idx ++ " " ++ field ++
        " validation failed: " ++ e)
  else .ok afs

/-- The account-level date field normalization inside
`_validateNormalizedData`. -/
def accountDateField (fb : String → Option ℤ) (idx : ℕ) (field : String)
    (afs : List (String × JSVal)) : Except String (List (String × JSVal)) :=
  if presentF (getF afs field) then
    match validateAndFormatDate fb (getF afs field) with
    | .ok v => .ok (setF afs field (jsOfOptStr v))
    | .err e =>
      .error ("Account " ++ toString idx ++ " " ++ field ++
        " validation failed: " ++ e)
  else .ok afs

/-- The `accountType` enumeration check inside `_validateNormalizedData`:
when present it must be the string Savings or Current. -/
def isValidAccountType : JSVal → Bool
  | .str s => s = "Savings" || s = "Current"
  | _ => false

def accountTypeCheck (idx : ℕ) (afs : List (String × JSVal)) :
    Except String Unit :=
  if presentF (getF afs "accountType") then
    if isValidAccountType (getF afs "accountType") then .ok ()
    else
      .error ("Account " ++ toString idx ++ " has invalid account type: " ++
        jsDisplay (getF afs "accountType") ++
        ". Must be \"Savings\", \"Current\", or null")
  else .ok ()

/-- Per-account body of `_validateNormalizedData`: transactions validated
and assigned back, then monetary fields, then date fields, then the
accountType check; the first failure throws. Returns the mutated account. -/
def validateAccount (fb : String → Option ℤ) (idx : ℕ) (account : JSVal) :
    Except String JSVal :=
  match account with
  | .obj afs =>
    match getF afs "transactions" with
    | .arr ts =>
      match validateAccountTransactions fb (.arr ts) with
      | (.ok v, _) => do
        let afs1 := setF afs "transactions" v
        let afs2 ← accountAmountField idx "openingBalance" afs1
        let afs3 ← accountAmountField idx "closingBalance" afs2
        let afs4 ← accountDateField fb idx "statementStartDate" afs3
        let afs5 ← accountDateField fb idx "statementEndDate" afs4
        let _ ← accountTypeCheck idx afs5
        .ok (.obj afs5)
      | (.err e, _) =>
        .error ("Account " ++ toString idx ++
          " transaction validation failed: " ++ e)
    | _ => .error ("Account " ++ toString idx ++ " must have a transactions array")
  | _ => .error ("Account " ++ toString idx ++ " must be an object")

def validateAccountsList (fb : String → Option ℤ) (idx : ℕ) :
    List JSVal → Except String (List JSVal)
  | [] => .ok []
  | a :: rest => do
    let a' ← validateAccount fb idx a
    let rest' ← validateAccountsList fb (idx + 1) rest
    .ok (a' :: rest')

/-- Models `_validateNormalizedData`: top-level shape checks (an object with a
truthy string `fileName` and an `accounts` array; a JS array passes the
`typeof` object check but has an undefined `fileName`), then the
per-account validation. Returns the data as mutated in place. -/
def validateNormalizedData (fb : String → Option ℤ) (d : JSVal) :
    Except String JSVal :=
  match d with
  | .obj fields =>
    match getF fields "fileName" with
    | .str s =>
      if s = "" then .error "Normalized data must include a valid fileName"
      else
        match getF fields "accounts" with
        | .arr accounts => do
          let accounts' ← validateAccountsList fb 0 accounts
          .ok (.obj (setF fields "accounts" (.arr accounts')))
        | _ => .error "Normalized data must include an accounts array"
    | _ => .error "Normalized data must include a valid fileName"
  | .arr _ => .error "Normalized data must include a valid fileName"
  | _ => .error "Normalized data must be an object"

/-- The environment of one `processStatement` run: the outcome each
collaborator call would produce (storage retrieval, Textract analysis,
Gemini normalization), the development-mode flags consulted by the
Textract fallback, and the date fallback parser. -/
structure PipelineEnv : Type where
  storageResult : Except String Unit
  textractResult : Except String Unit
  geminiResult : Except String JSVal
  isDevelopment : Bool
  allowLegacy : Bool
  dateFallback : String → Option ℤ

/-- Collaborator invocations, in call order. -/
inductive CollabCall : Type where
  | storageGetFile : CollabCall
  | textractAnalyze : CollabCall
  | geminiNormalize : CollabCall
  deriving Repr, DecidableEq

/-- The `AppError` codes `processStatement` can reject with, plus the
raw-rethrow case for errors that are not recognized. -/
inductive PErr : Type where
  | invalidJobId : PErr
  | jobNotFound : String → PErr
  | invalidJobStatus : String → JobStatus → PErr
  | s3RetrievalFailed : String → PErr
  | textractAnalysisFailed : String → PErr
  | geminiNormalizationFailed : String → PErr
  | dataValidationFailed : String → PErr
  | internalError : String → PErr
  deriving Repr, DecidableEq

/-- The success response `{jobId, status, accountsDetected}`. -/
structure ProcessResponse : Type where
  jobId : String
  status : JobStatus
  accountsDetected : ℤ
  deriving Repr, DecidableEq

/-- Outcome of a `processStatement` run: the HTTP-level result, the store
it leaves behind, and the collaborator calls it made. -/
structure ProcessOut : Type where
  result : Except PErr ProcessResponse
  store : Store
  calls : List CollabCall

/-- Models `_handleProcessingError`: record the message and move the job to
FAILED; a failure of that update is caught and swallowed. -/
def handleProcessingError (st : Store) (now : ℤ) (jobId : String)
    (msg : String) : Store :=
  effectiveStore
    (updateJobStatus st now jobId .failed { errorMessage := some msg }) st

/-- Models `normalizedData.accounts?.length || 0` on the validated data. -/
def accountsLen (d : JSVal) : ℤ :=
  match d with
  | .obj fields =>
    match getF fields "accounts" with
    | .arr l => (l.length : ℤ)
    | _ => 0
  | _ => 0

/-- Stages 3 and 4 of the pipeline (Gemini normalization, then validation
and persistence), shared by the two paths out of stage 2. -/
def processStages34 (env : PipelineEnv) (st1 : Store) (now : ℤ)
    (jobId : String) (calls : List CollabCall) : ProcessOut :=
  match env.geminiResult with
  | .error e =>
    let st2 := handleProcessingError st1 now jobId
      ("Gemini normalization failed: " ++ e)
    ⟨.error (.geminiNormalizationFailed jobId), st2, calls ++ [.geminiNormalize]⟩
  | .ok nd =>
    match validateNormalizedData env.dateFallback nd with
    | .error e =>
      let st2 := handleProcessingError st1 now jobId
        ("Data validation failed: " ++ e)
      ⟨.error (.dataValidationFailed jobId), st2, calls ++ [.geminiNormalize]⟩
    | .ok nd' =>
      let detected := accountsLen nd'
      match updateJobStatus st1 now jobId .processed
        { accountsDetected := some detected, processedData := some nd' } with
      | .ok st2 =>
        ⟨.ok ⟨jobId, .processed, detected⟩, st2, calls ++ [.geminiNormalize]⟩
      | .error e =>
        let st2 := handleProcessingError st1 now jobId
          ("Data validation failed: " ++ e)
        ⟨.error (.dataValidationFailed jobId), st2, calls ++ [.geminiNormalize]⟩

/-- Models `processStatement`: parameter check, job lookup, UPLOADED-status
precondition, transition to PROCESSING, then the four stages; every stage
failure records an error message and moves the job to FAILED before the
typed error is surfaced. -/
def processStatement (env : PipelineEnv) (st : Store) (now : ℤ)
    (jobId : String) : ProcessOut :=
  if jobId = "" then ⟨.error .invalidJobId, st, []⟩
  else
    match storeGet st jobId with
    | none => ⟨.error (.jobNotFound jobId), st, []⟩
    | some job =>
      if job.status ≠ .uploaded then
        ⟨.error (.invalidJobStatus jobId job.status), st, []⟩
      else
        match updateJobStatus st now jobId .processing {} with
        | .error e => ⟨.error (.internalError e), st, []⟩
        | .ok st1 =>
          match env.storageResult with
          | .error e =>
            let st2 := handleProcessingError st1 now jobId
              ("Failed to retrieve PDF from S3: " ++ e)
            ⟨.error (.s3RetrievalFailed jobId), st2, [.storageGetFile]⟩
          | .ok _ =>
            match env.textractResult with
            | .error e =>
              if env.isDevelopment && env.allowLegacy then
                processStages34 env st1 now jobId
                  [.storageGetFile, .textractAnalyze]
              else
                let st2 := handleProcessingError st1 now jobId
                  ("Textract analysis failed: " ++ e)
                ⟨.error (.textractAnalysisFailed jobId), st2,
                  [.storageGetFile, .textractAnalyze]⟩
            | .ok _ =>
              processStages34 env st1 now jobId
                [.storageGetFile, .textractAnalyze]

/-! ## Cleanup service (src/services/cleanupService.js) -/

/-- Cleanup retention configuration (milliseconds, and the per-sweep job
limit). -/
structure CleanupConfig : Type where
  completedJobRetentionMs : ℤ
  failedJobRetentionMs : ℤ
  cleanupIntervalMs : ℤ
  maxJobsPerCleanup : ℕ

/-- Job store plus the storage backend contents (the keys currently held by
the storage service; `deleteFile` is idempotent per the storage contract,
so it is modeled as a total removal). -/
structure CleanState : Type where
  store : Store
  files : List String

/-- Models `_shouldCleanupJob`: age/status retention predicate. UPLOADED and
PROCESSING jobs are never eligible. -/
def shouldCleanupJob (cfg : CleanupConfig) (job : Job) (now : ℤ) : Bool :=
  match job.status with
  | .processed => now - job.updatedAt > cfg.completedJobRetentionMs
  | .failed => now - job.updatedAt > cfg.failedJobRetentionMs
  | .uploaded => false
  | .processing => false

/-- Models `_cleanupJob`: delete the stored file when the job has a truthy storage
key, then delete the job record; a `deleteJob` error (empty id) is wrapped. -/
def cleanupJob (s : CleanState) (job : Job) : Except String CleanState :=
  let files' :=
    if job.s3Key ≠ "" then s.files.filter (fun k => k ≠ job.s3Key)
    else s.files
  match deleteJob s.store job.jobId with
  | .ok r => .ok ⟨r.1, files'⟩
  | .error e =>
    .error ("Failed to cleanup job " ++ job.jobId ++ ": " ++ e)

/-- Aggregate statistics returned by `performCleanup`. -/
structure CleanupStats : Type where
  jobsProcessed : ℕ := 0
  jobsDeleted : ℕ := 0
  filesDeleted : ℕ := 0
  errors : List (String × String) := []
  deriving Repr, DecidableEq

/-- The sweep loop of `performCleanup` over the snapshot of all jobs:
stops once `processedCount` reaches the per-sweep limit; an eligible job is
cleaned up, a per-job failure is recorded and skips the counters. -/
def performLoop (cfg : CleanupConfig) (now : ℤ) :
    List Job → ℕ → CleanState → CleanupStats → CleanState × CleanupStats
  | [], _, s, stats => (s, stats)
  | job :: rest, processedCount, s, stats =>
    if cfg.maxJobsPerCleanup ≤ processedCount then (s, stats)
    else
      if shouldCleanupJob cfg job now then
        match cleanupJob s job with
        | .ok s' =>
          performLoop cfg now rest (processedCount + 1) s'
            { stats with
              jobsProcessed := stats.jobsProcessed + 1
              jobsDeleted := stats.jobsDeleted + 1
              filesDeleted := stats.filesDeleted + 1 }
        | .error e =>
          performLoop cfg now rest processedCount s
            { stats with errors := stats.errors ++ [(job.jobId, e)] }
      else
        performLoop cfg now rest (processedCount + 1) s
          { stats with jobsProcessed := stats.jobsProcessed + 1 }

/-- Models `performCleanup`: one sweep over `getAllJobs()`. -/
def performCleanup (cfg : CleanupConfig) (now : ℤ) (s : CleanState) :
    CleanState × CleanupStats :=
  performLoop cfg now (getAllJobs s.store) 0 s {}

/-- Models `cleanupJobById`: resolves the job through `getJobResult` (whose
Job-not-found error is caught and turned into `false`), then runs
`_cleanupJob` on it unconditionally — there is no status check. -/
def cleanupJobById (s : CleanState) (jobId : String) :
    Except String (Bool × CleanState) :=
  if jobId = "" then
    .error ("Failed to cleanup job " ++ jobId ++
      ": jobId is required and must be a string")
  else
    match storeGet s.store jobId with
    | none => .ok (false, s)
    | some job =>
      match cleanupJob s job with
      | .ok s' => .ok (true, s')
      | .error e => .error ("Failed to cleanup job " ++ jobId ++ ": " ++ e)

/-! ## Result sanitizer (src/controllers/resultsController.js) -/

/-- JS property read `v[key]` as used by the sanitizer: reading a property
of `null`/`undefined` throws a TypeError, primitives yield `undefined`,
arrays expose `length`. -/
def jsGet (v : JSVal) (key : String) : Except String JSVal :=
  match v with
  | .null => .error "TypeError: Cannot read properties of null"
  | .undefined => .error "TypeError: Cannot read properties of undefined"
  | .obj fs => .ok (getF fs key)
  | .arr xs => .ok (if key = "length" then .num (xs.length : ℚ) else .undefined)
  | _ => .ok .undefined

/-- Models `x || y`. -/
def jsOr (v dflt : JSVal) : JSVal := if truthy v then v else dflt

/-- Models `x || null`. -/
def orNull (v : JSVal) : JSVal := if truthy v then v else .null

/-- The per-transaction projection of `_sanitizeTransactions`. -/
def sanitizeTransaction (t : JSVal) : Except String JSVal := do
  let d ← jsGet t "date"
  let de ← jsGet t "description"
  let db ← jsGet t "debit"
  let cr ← jsGet t "credit"
  let ba ← jsGet t "balance"
  .ok (.obj [("date", orNull d), ("description", orNull de),
    ("debit", orNull db), ("credit", orNull cr), ("balance", orNull ba)])

def sanitizeTransactionList : List JSVal → Except String (List JSVal)
  | [] => .ok []
  | t :: rest => do
    let t' ← sanitizeTransaction t
    let rest' ← sanitizeTransactionList rest
    .ok (t' :: rest')

/-- Models `_sanitizeTransactions`: non-arrays become `[]`, arrays are projected
element-wise. -/
def sanitizeTransactions (v : JSVal) : Except String JSVal :=
  match v with
  | .arr ts => do
    let ts' ← sanitizeTransactionList ts
    .ok (.arr ts')
  | _ => .ok (.arr [])

/-- The per-account projection of `_sanitizeProcessedData`. -/
def sanitizeAccount (a : JSVal) : Except String JSVal := do
  let bn ← jsGet a "bankName"
  let ahn ← jsGet a "accountHolderName"
  let an ← jsGet a "accountNumber"
  let at0 ← jsGet a "accountType"
  let cu ← jsGet a "currency"
  let ssd ← jsGet a "statementStartDate"
  let sed ← jsGet a "statementEndDate"
  let ob ← jsGet a "openingBalance"
  let cb ← jsGet a "closingBalance"
  let tr ← jsGet a "transactions"
  let tr' ← sanitizeTransactions (jsOr tr (.arr []))
  .ok (.obj [("bankName", orNull bn), ("accountHolderName", orNull ahn),
    ("accountNumber", orNull an), ("accountType", orNull at0),
    ("currency", orNull cu), ("statementStartDate", orNull ssd),
    ("statementEndDate", orNull sed), ("openingBalance", orNull ob),
    ("closingBalance", orNull cb), ("transactions", tr')])

def sanitizeAccountList : List JSVal → Except String (List JSVal)
  | [] => .ok []
  | a :: rest => do
    let a' ← sanitizeAccount a
    let rest' ← sanitizeAccountList rest
    .ok (a' :: rest')

/-- Models `_sanitizeProcessedData`: projects the processed data down to
`{fileName, accounts}` where each account (and each transaction) carries
exactly the recognized field set; `accounts` that is missing, falsy or not
an array becomes `[]` (the source guard `accounts && Array.isArray(accounts)`
is equivalent to the array test alone, a JS array being always truthy). -/
def sanitizeProcessedData (pd : JSVal) : Except String JSVal := do
  let fn ← jsGet pd "fileName"
  let acc ← jsGet pd "accounts"
  match acc with
  | .arr accounts => do
    let accounts' ← sanitizeAccountList accounts
    .ok (.obj [("fileName", orNull fn), ("accounts", .arr accounts')])
  | _ => .ok (.obj [("fileName", orNull fn), ("accounts", .arr [])])

/-! ## Heap model for the defensive-copy claim (jobManager.getJobResult
and the Job constructor in src/types) -/

/-- A stored job whose `processedData` is an explicit reference (heap
address) when present — the representation needed to reason about aliasing
between the store and the objects handed to callers. -/
structure JobRef : Type where
  jobId : String
  fileName : String
  s3Key : String
  status : JobStatus
  accountsDetected : Option ℤ
  processedData : Option ℕ
  errorMessage : Option String
  createdAt : ℤ
  updatedAt : ℤ
  deriving Repr, DecidableEq

/-- The store of job records plus the heap of payload objects they point
into. -/
structure HeapState : Type where
  store : List (String × JobRef)
  heap : List (ℕ × JSVal)

def refLookup (st : List (String × JobRef)) (jobId : String) : Option JobRef :=
  match st with
  | [] => none
  | (k, j) :: rest => if k = jobId then some j else refLookup rest jobId

/-- The copy `getJobResult` builds:
`new Job({jobId: job.jobId, ..., processedData: job.processedData, ...})` —
a fresh record whose `processedData` field carries over the same reference
(the Job constructor assigns the incoming values without cloning them). -/
def copyJobRef (j : JobRef) : JobRef :=
  { jobId := j.jobId
    fileName := j.fileName
    s3Key := j.s3Key
    status := j.status
    accountsDetected := j.accountsDetected
    processedData := j.processedData
    errorMessage := j.errorMessage
    createdAt := j.createdAt
    updatedAt := j.updatedAt }

/-- Models `getJobResult` in the heap model (`none` for a missing job). -/
def getJobResultRef (s : HeapState) (jobId : String) : Option JobRef :=
  (refLookup s.store jobId).map copyJobRef

def heapRead (h : List (ℕ × JSVal)) (a : ℕ) : Option JSVal :=
  match h with
  | [] => none
  | (b, v) :: rest => if b = a then some v else heapRead rest a

def heapWriteList (h : List (ℕ × JSVal)) (a : ℕ) (v : JSVal) :
    List (ℕ × JSVal) :=
  match h with
  | [] => h
  | (b, w) :: rest =>
    if b = a then (b, v) :: rest else (b, w) :: heapWriteList rest a v

/-- An external caller mutating the object at address `a` (for example
assigning into the `processedData` payload it got back from
`getJobResult`). The store itself is not touched. -/
def heapWrite (s : HeapState) (a : ℕ) (v : JSVal) : HeapState :=
  ⟨s.store, heapWriteList s.heap a v⟩

/-- What a later `getJobResult` call lets a caller observe of the job's
nested processed data. -/
def observeProcessedData (s : HeapState) (jobId : String) : Option JSVal :=
  (getJobResultRef s jobId).bind fun j =>
    j.processedData.bind fun a => heapRead s.heap a

/-! ## Substring search (for claims about error-message contents) -/

/-- Whether the needle occurs as a contiguous run inside the haystack. -/
def listHasRun (hay needle : List Char) : Bool :=
  listLeads needle hay ||
    match hay with
    | [] => false
    | _ :: t => listHasRun t needle

def strContains (hay needle : String) : Bool :=
  listHasRun hay.toList needle.toList

/-! ## Field-set constants of the sanitizer output (section 3 data model) -/

def transactionFieldKeys : List String :=
  ["date", "description", "debit", "credit", "balance"]

def accountFieldKeys : List String :=
  ["bankName", "accountHolderName", "accountNumber", "accountType",
    "currency", "statementStartDate", "statementEndDate", "openingBalance",
    "closingBalance", "transactions"]

/-- Stated from the spec data model, for the refinement claim about the
sanitizer: a transaction object carries exactly the Transaction field set. -/
def specTransactionShape : JSVal → Bool
  | .obj fs => fs.map Prod.fst == transactionFieldKeys
  | _ => false

/-- Stated from the spec data model: a bank account object carries exactly
the BankAccount field set and its transactions are Transaction-shaped. -/
def specAccountShape : JSVal → Bool
  | .obj fs =>
    fs.map Prod.fst == accountFieldKeys &&
      (match getF fs "transactions" with
       | .arr ts => ts.all specTransactionShape
       | _ => false)
  | _ => false

/-- Stated from the spec data model: a statement object carries exactly the
BankStatementData field set with BankAccount-shaped accounts. -/
def specStatementShape : JSVal → Bool
  | .obj fs =>
    fs.map Prod.fst == ["fileName", "accounts"] &&
      (match getF fs "accounts" with
       | .arr accounts => accounts.all specAccountShape
       | _ => false)
  | _ => false

end Bank

/-! # Theorems -/

namespace Bank

/-! ## Lemmas about object field access and the transaction validator -/

theorem getF_setF_same (fs : List (String × JSVal)) (k : String) (v : JSVal) :
    getF (setF fs k v) k = v := by
  induction fs with
  | nil => simp [setF, getF]
  | cons p rest ih =>
    rcases p with ⟨k0, w⟩
    by_cases h : k0 = k <;> simp [setF, getF, h, ih]

theorem getF_setF_ne (fs : List (String × JSVal)) (k k' : String) (v : JSVal)
    (h : k ≠ k') : getF (setF fs k v) k' = getF fs k' := by
  induction fs with
  | nil => simp [setF, getF, h]
  | cons p rest ih =>
    rcases p with ⟨k0, w⟩
    by_cases h0 : k0 = k
    · subst h0; simp [setF, getF, h]
    · simp [setF, getF, h0, ih]

theorem amountStep_ok (fs : List (String × JSVal)) (k lbl : String)
    (h : (amountStep fs k lbl).1 = []) :
    ∃ v, validateMonetaryAmount (getF fs k) = .ok v ∧
      (amountStep fs k lbl).2 = setF fs k (jsOfOptNum v) := by
  unfold amountStep at *
  cases hv : validateMonetaryAmount (getF fs k) <;> simp [hv] at h ⊢

theorem amountStep_getF_ne (fs : List (String × JSVal)) (k lbl k' : String)
    (h : k ≠ k') : getF (amountStep fs k lbl).2 k' = getF fs k' := by
  unfold amountStep
  cases hv : validateMonetaryAmount (getF fs k) <;>
    simp [getF_setF_ne _ _ _ _ h]

theorem presentF_false_null (x : Option ℚ)
    (h : presentF (jsOfOptNum x) = false) : jsOfOptNum x = JSVal.null := by
  cases x <;> simp [jsOfOptNum, presentF] at h ⊢

theorem exclStep_nil (fs : List (String × JSVal)) (h : exclStep fs = []) :
    presentF (getF fs "debit") = false ∨
    presentF (getF fs "credit") = false := by
  unfold exclStep validateDebitCreditExclusivity at h
  by_cases hc : (presentF (getF fs "debit") && presentF (getF fs "credit")) = true
  · simp [hc] at h
  · simp only [Bool.and_eq_true, not_and_or, Bool.not_eq_true] at hc
    exact hc

/-- When all accumulated errors of `vtCore` are empty, the final fields
carry a null debit or a null credit. -/
theorem vtCore_success_exclusive (fb : String → Option ℤ)
    (fs0 : List (String × JSVal)) (h : (vtCore fb fs0).1 = []) :
    getF (vtCore fb fs0).2 "debit" = JSVal.null ∨
    getF (vtCore fb fs0).2 "credit" = JSVal.null := by
  unfold vtCore at *
  simp only [List.append_eq_nil] at h
  obtain ⟨⟨⟨⟨⟨h1, hd⟩, h2⟩, h3⟩, h4⟩, he⟩ := h
  obtain ⟨dv, hdv, hF2⟩ := amountStep_ok _ _ _ h2
  obtain ⟨cv, hcv, hF3⟩ := amountStep_ok _ _ _ h3
  obtain ⟨bv, hbv, hF4⟩ := amountStep_ok _ _ _ h4
  have hdeb : getF (amountStep (amountStep (amountStep (dateStep fb fs0).2
      "debit" "Debit").2 "credit" "Credit").2 "balance" "Balance").2 "debit" =
      jsOfOptNum dv := by
    rw [amountStep_getF_ne _ _ _ _ (by decide),
      amountStep_getF_ne _ _ _ _ (by decide), hF2, getF_setF_same]
  have hcred : getF (amountStep (amountStep (amountStep (dateStep fb fs0).2
      "debit" "Debit").2 "credit" "Credit").2 "balance" "Balance").2 "credit" =
      jsOfOptNum cv := by
    rw [amountStep_getF_ne _ _ _ _ (by decide), hF3, getF_setF_same]
  rcases exclStep_nil _ he with hx | hx
  · left
    rw [hdeb] at hx ⊢
    exact presentF_false_null _ hx
  · right
    rw [hcred] at hx ⊢
    exact presentF_false_null _ hx


/-- Claim C1: whenever `validateTransaction` returns a success result, the
normalized transaction it returns does not have both debit and credit
non-null — at least one of the two fields is null. -/
theorem validateTransaction_success_exclusive (fb : String → Option ℤ)
    (t v t' : JSVal) (h : validateTransaction fb t = (.ok v, t')) :
    ∃ fields, v = .obj fields ∧
      (getF fields "debit" = JSVal.null ∨ getF fields "credit" = JSVal.null) := by
  cases t with
  | obj fs0 =>
    simp only [validateTransaction] at h
    by_cases hc : (vtCore fb fs0).1 = []
    · rw [if_pos hc] at h
      injection h with h1 h2
      injection h1 with h1
      exact ⟨(vtCore fb fs0).2, h1.symm, vtCore_success_exclusive fb fs0 hc⟩
    · rw [if_neg hc] at h
      injection h with h1 h2
      cases h1
  | undefined => injection h with h1 _; cases h1
  | null => injection h with h1 _; cases h1
  | bool b => injection h with h1 _; cases h1
  | num q => injection h with h1 _; cases h1
  | nan => injection h with h1 _; cases h1
  | inf s => injection h with h1 _; cases h1
  | str s => injection h with h1 _; cases h1
  | arr xs => injection h with h1 _; cases h1

/-- Witness for C1 at a concrete credit-only transaction. -/
theorem validateTransaction_success_exclusive_witness :
    ∃ fields,
      JSVal.obj [("date", .str "2024-01-15"), ("description", .str "Test"),
        ("credit", .num 5), ("debit", .null), ("balance", .null)] =
        .obj fields ∧
      (getF fields "debit" = JSVal.null ∨ getF fields "credit" = JSVal.null) :=
  validateTransaction_success_exclusive (fun _ => none)
    (JSVal.obj [("date", .str "2024-01-15"), ("description", .str "Test"),
      ("credit", .num 5)])
    (JSVal.obj [("date", .str "2024-01-15"), ("description", .str "Test"),
      ("credit", .num 5), ("debit", .null), ("balance", .null)])
    (JSVal.obj [("date", .str "2024-01-15"), ("description", .str "Test"),
      ("credit", .num 5), ("debit", .null), ("balance", .null)])
    (by rfl)


/-- Counterexample to claim C5: the input day 32 matches the `D/M/YYYY`
pattern but is not a real calendar date, yet `validateAndFormatDate`
succeeds and silently reformats it to a valid date (JS `Date` rollover). -/
theorem validateAndFormatDate_day32_rollover :
    validateAndFormatDate (fun _ => none) (.str "32/1/2020") =
      .ok (some "2020-02-01") := by rfl

theorem splitOn_ne_nil (sep : Char) (cs : List Char) : splitOn sep cs ≠ [] := by
  cases cs with
  | nil => simp [splitOn]
  | cons c rest =>
    simp only [splitOn]
    by_cases h : c = sep
    · simp [h]
    · simp only [if_neg h]
      cases hr : splitOn sep rest with
      | nil => simp
      | cons g gs => simp

/-- Every character of the input is the separator or lies in one of the
groups `splitOn` produces. -/
theorem splitOn_chars (sep : Char) :
    ∀ (cs : List Char) (x : Char), x ∈ cs →
      x = sep ∨ ∃ g ∈ splitOn sep cs, x ∈ g := by
  intro cs
  induction cs with
  | nil => intro x hx; cases hx
  | cons c rest ih =>
    intro x hx
    simp only [splitOn]
    by_cases hc : c = sep
    · rcases List.mem_cons.mp hx with hx1 | hx1
      · left; rw [hx1, hc]
      · rcases ih x hx1 with h1 | ⟨g, hg, hxg⟩
        · left; exact h1
        · right
          exact ⟨g, by simp [hc, hg], hxg⟩
    · rw [if_neg hc]
      cases hr : splitOn sep rest with
      | nil => exact absurd hr (splitOn_ne_nil sep rest)
      | cons g0 gs =>
        rcases List.mem_cons.mp hx with hx1 | hx1
        · right
          exact ⟨c :: g0, by simp, by simp [hx1]⟩
        · rcases ih x hx1 with h1 | ⟨g, hg, hxg⟩
          · left; exact h1
          · rw [hr] at hg
            rcases List.mem_cons.mp hg with hg1 | hg1
            · right
              exact ⟨c :: g0, by simp, by simp [hg1 ▸ hxg]⟩
            · right
              exact ⟨g, by simp [hg1], hxg⟩

theorem splitOn_single_of_no_sep (sep : Char) :
    ∀ (cs : List Char), (∀ x ∈ cs, x ≠ sep) → splitOn sep cs = [cs] := by
  intro cs
  induction cs with
  | nil => intro _; rfl
  | cons c rest ih =>
    intro h
    have hc : c ≠ sep := h c (by simp)
    simp only [splitOn, if_neg hc, ih (fun x hx => h x (by simp [hx]))]

/-- A `D sep M sep YYYY` match forces every character of the string to be a
digit or the separator. -/
theorem matchD12D12Y_chars (sep : Char) (s : String) (r : ℕ × ℕ × ℕ)
    (h : matchD12D12Y sep s = some r) :
    ∀ x ∈ s.toList, x.isDigit = true ∨ x = sep := by
  unfold matchD12D12Y at h
  split at h
  case h_2 => cases h
  case h_1 a b c heq =>
    split at h
    case isFalse => cases h
    case isTrue hcond =>
      simp only [digits12, digits4, Bool.and_eq_true, List.all_eq_true] at hcond
      intro x hx
      rcases splitOn_chars sep s.toList x hx with h1 | ⟨g, hg, hxg⟩
      · right; exact h1
      · left
        rw [heq] at hg
        rcases List.mem_cons.mp hg with hg1 | hg1
        · exact hcond.1.1.2 x (hg1 ▸ hxg)
        rcases List.mem_cons.mp hg1 with hg2 | hg2
        · exact hcond.1.2.2 x (hg2 ▸ hxg)
        rcases List.mem_cons.mp hg2 with hg3 | hg3
        · exact hcond.2.2 x (hg3 ▸ hxg)
        · cases hg3

/-- A `YYYY/M/D` match forces every character of the string to be a digit
or a slash. -/
theorem matchYMD_chars (s : String) (r : ℕ × ℕ × ℕ)
    (h : matchYMD s = some r) :
    ∀ x ∈ s.toList, x.isDigit = true ∨ x = '/' := by
  unfold matchYMD at h
  split at h
  case h_2 => cases h
  case h_1 a b c heq =>
    split at h
    case isFalse => cases h
    case isTrue hcond =>
      simp only [digits12, digits4, Bool.and_eq_true, List.all_eq_true] at hcond
      intro x hx
      rcases splitOn_chars '/' s.toList x hx with h1 | ⟨g, hg, hxg⟩
      · right; exact h1
      · left
        rw [heq] at hg
        rcases List.mem_cons.mp hg with hg1 | hg1
        · exact hcond.1.1.2 x (hg1 ▸ hxg)
        rcases List.mem_cons.mp hg1 with hg2 | hg2
        · exact hcond.1.2.2 x (hg2 ▸ hxg)
        rcases List.mem_cons.mp hg2 with hg3 | hg3
        · exact hcond.2.2 x (hg3 ▸ hxg)
        · cases hg3

theorem matchD12D12Y_none_of_no_sep (sep : Char) (s : String)
    (h : ∀ x ∈ s.toList, x ≠ sep) : matchD12D12Y sep s = none := by
  unfold matchD12D12Y
  rw [splitOn_single_of_no_sep sep s.toList h]

theorem matchYMD_none_of_no_slash (s : String)
    (h : ∀ x ∈ s.toList, x ≠ '/') : matchYMD s = none := by
  unfold matchYMD
  rw [splitOn_single_of_no_sep '/' s.toList h]

/-- From a digit-or-sep character bound, any other non-digit separator does
not occur in the string, so the corresponding matcher fails. -/
theorem matchD12D12Y_none_of_chars (sep sep' : Char) (s : String)
    (hchars : ∀ x ∈ s.toList, x.isDigit = true ∨ x = sep)
    (hdig : sep'.isDigit = false) (hne : sep ≠ sep') :
    matchD12D12Y sep' s = none := by
  apply matchD12D12Y_none_of_no_sep
  intro x hx hxe
  rcases hchars x hx with h1 | h1
  · rw [hxe, hdig] at h1; cases h1
  · exact hne (h1 ▸ hxe)

theorem matchYMD_none_of_chars (sep : Char) (s : String)
    (hchars : ∀ x ∈ s.toList, x.isDigit = true ∨ x = sep)
    (hne : sep ≠ '/') : matchYMD s = none := by
  apply matchYMD_none_of_no_slash
  intro x hx hxe
  rcases hchars x hx with h1 | h1
  · rw [hxe] at h1; cases h1
  · exact hne (h1 ▸ hxe)

/-- A `YYYY/M/D` match rules out a `D/M/YYYY` match on the same string:
the first slash-separated group has four digits, not one or two. -/
theorem matchD12D12Y_slash_none_of_matchYMD (s : String) (r : ℕ × ℕ × ℕ)
    (h : matchYMD s = some r) : matchD12D12Y '/' s = none := by
  unfold matchYMD at h
  split at h
  case h_2 => cases h
  case h_1 a b c heq =>
    split at h
    case isFalse => cases h
    case isTrue hcond =>
      simp only [digits4, Bool.and_eq_true] at hcond
      have hlen : a.length = 4 := by
        have := hcond.1.1.1
        simpa using this
      unfold matchD12D12Y
      rw [heq]
      have h12 : digits12 a = false := by
        simp [digits12, hlen]
      simp [h12]

/-- Claim C5 as amended: ISO-shaped strings are range-checked against the
real calendar; strings matching any of the four non-ISO accepted formats
(D/M/YYYY, D-M-YYYY, YYYY/M/D, D.M.YYYY) always succeed, the components
being interpreted with `new Date` rollover semantics; strings matching no
accepted pattern are handed to the JS date-string fallback and fail
exactly when it fails. -/
theorem validateAndFormatDate_amended (fb : String → Option ℤ) (s : String) :
    (∀ y m d, isoShape s = true → isoComponents s = (y, m, d) →
      (validateAndFormatDate fb (.str s) = .ok (some s) ↔
        1 ≤ m ∧ m ≤ 12 ∧ 1 ≤ d ∧ d ≤ daysInMonth (y : ℤ) m)) ∧
    (∀ d m y, isoShape s = false → matchD12D12Y '/' s = some (d, m, y) →
      validateAndFormatDate fb (.str s) =
        .ok (some (formatDays (jsDateFromYMD (y : ℤ) ((m : ℤ) - 1) (d : ℤ))))) ∧
    (∀ d m y, isoShape s = false → matchD12D12Y '-' s = some (d, m, y) →
      validateAndFormatDate fb (.str s) =
        .ok (some (formatDays (jsDateFromYMD (y : ℤ) ((m : ℤ) - 1) (d : ℤ))))) ∧
    (∀ y m d, isoShape s = false → matchYMD s = some (y, m, d) →
      validateAndFormatDate fb (.str s) =
        .ok (some (formatDays (jsDateFromYMD (y : ℤ) ((m : ℤ) - 1) (d : ℤ))))) ∧
    (∀ d m y, isoShape s = false → matchD12D12Y '.' s = some (d, m, y) →
      validateAndFormatDate fb (.str s) =
        .ok (some (formatDays (jsDateFromYMD (y : ℤ) ((m : ℤ) - 1) (d : ℤ))))) ∧
    (isoShape s = false → tryCommonFormats s = none →
      (validateAndFormatDate fb (.str s) = .err "Unable to parse date value" ↔
        fb s = none)) := by
  refine ⟨?_, ?_, ?_, ?_, ?_, ?_⟩
  · intro y m d hiso hc
    simp only [validateAndFormatDate, hiso, if_pos]
    unfold isoReal
    rw [hc]
    by_cases hr : 1 ≤ m ∧ m ≤ 12 ∧ 1 ≤ d ∧ d ≤ daysInMonth (y : ℤ) m
    · simp only [hr, iff_true]
      obtain ⟨h1, h2, h3, h4⟩ := hr
      simp [h1, h2, h3, h4]
    · simp only [hr, iff_false]
      intro hcon
      rw [if_neg] at hcon
      · cases hcon
      · intro hb
        simp only [Bool.and_eq_true, decide_eq_true_eq] at hb
        obtain ⟨⟨⟨hb1, hb2⟩, hb3⟩, hb4⟩ := hb
        exact hr ⟨hb1, hb2, hb3, hb4⟩
  · intro d m y hiso hm
    simp only [validateAndFormatDate, hiso, Bool.false_eq_true, if_false,
      tryCommonFormats, hm]
  · intro d m y hiso hm
    have hch := matchD12D12Y_chars '-' s (d, m, y) hm
    have hsl : matchD12D12Y '/' s = none :=
      matchD12D12Y_none_of_chars '-' '/' s hch (by decide) (by decide)
    simp only [validateAndFormatDate, hiso, Bool.false_eq_true, if_false,
      tryCommonFormats, hsl, hm]
  · intro y m d hiso hm
    have hch := matchYMD_chars s (y, m, d) hm
    have hsl := matchD12D12Y_slash_none_of_matchYMD s (y, m, d) hm
    have hda : matchD12D12Y '-' s = none :=
      matchD12D12Y_none_of_chars '/' '-' s hch (by decide) (by decide)
    simp only [validateAndFormatDate, hiso, Bool.false_eq_true, if_false,
      tryCommonFormats, hsl, hda, hm]
  · intro d m y hiso hm
    have hch := matchD12D12Y_chars '.' s (d, m, y) hm
    have hsl : matchD12D12Y '/' s = none :=
      matchD12D12Y_none_of_chars '.' '/' s hch (by decide) (by decide)
    have hda : matchD12D12Y '-' s = none :=
      matchD12D12Y_none_of_chars '.' '-' s hch (by decide) (by decide)
    have hym : matchYMD s = none :=
      matchYMD_none_of_chars '.' s hch (by decide)
    simp only [validateAndFormatDate, hiso, Bool.false_eq_true, if_false,
      tryCommonFormats, hsl, hda, hym, hm]
  · intro hiso ht
    simp only [validateAndFormatDate, hiso, Bool.false_eq_true, if_false, ht]
    cases hf : fb s with
    | none => simp
    | some dn =>
      constructor <;> intro hcon <;> cases hcon

/-- Witness for the amended C5: one calendrically invalid input per
non-ISO format, each matched and reformatted under rollover. -/
theorem validateAndFormatDate_amended_witness :
    validateAndFormatDate (fun _ => none) (.str "32/1/2020") =
      .ok (some (formatDays (jsDateFromYMD (2020 : ℤ) ((1 : ℤ) - 1) (32 : ℤ)))) ∧
    validateAndFormatDate (fun _ => none) (.str "31-11-2020") =
      .ok (some (formatDays (jsDateFromYMD (2020 : ℤ) ((11 : ℤ) - 1) (31 : ℤ)))) ∧
    validateAndFormatDate (fun _ => none) (.str "2020/2/30") =
      .ok (some (formatDays (jsDateFromYMD (2020 : ℤ) ((2 : ℤ) - 1) (30 : ℤ)))) ∧
    validateAndFormatDate (fun _ => none) (.str "31.2.2020") =
      .ok (some (formatDays (jsDateFromYMD (2020 : ℤ) ((2 : ℤ) - 1) (31 : ℤ)))) :=
  ⟨(validateAndFormatDate_amended (fun _ => none) "32/1/2020").2.1
      32 1 2020 (by rfl) (by rfl),
    (validateAndFormatDate_amended (fun _ => none) "31-11-2020").2.2.1
      31 11 2020 (by rfl) (by rfl),
    (validateAndFormatDate_amended (fun _ => none) "2020/2/30").2.2.2.1
      2020 2 30 (by rfl) (by rfl),
    (validateAndFormatDate_amended (fun _ => none) "31.2.2020").2.2.2.2.1
      31 2 2020 (by rfl) (by rfl)⟩

theorem dateStep_getF_ne (fb : String → Option ℤ)
    (fs : List (String × JSVal)) (k : String) (h : "date" ≠ k) :
    getF (dateStep fb fs).2 k = getF fs k := by
  unfold dateStep
  cases hv : validateAndFormatDate fb (getF fs "date") <;>
    simp [getF_setF_ne _ _ _ _ h]

/-- Only the four normalized fields can change across `vtCore`. -/
theorem vtCore_getF_frame (fb : String → Option ℤ)
    (fs : List (String × JSVal)) (k : String) (h1 : "date" ≠ k)
    (h2 : "debit" ≠ k) (h3 : "credit" ≠ k) (h4 : "balance" ≠ k) :
    getF (vtCore fb fs).2 k = getF fs k := by
  unfold vtCore
  rw [amountStep_getF_ne _ _ _ _ h4, amountStep_getF_ne _ _ _ _ h3,
    amountStep_getF_ne _ _ _ _ h2, dateStep_getF_ne _ _ _ h1]

/-- A success value of `validateTransaction` is the post-state of its
argument (the source returns the argument object itself after mutating it
in place). -/
theorem validateTransaction_ok_eq_post (fb : String → Option ℤ)
    (t v : JSVal) (h : (validateTransaction fb t).1 = .ok v) :
    v = (validateTransaction fb t).2 := by
  cases t with
  | obj fs =>
    simp only [validateTransaction] at h ⊢
    by_cases hc : (vtCore fb fs).1 = []
    · rw [if_pos hc] at h ⊢
      injection h with h1
      exact h1.symm
    · rw [if_neg hc] at h
      cases h
  | undefined => cases h
  | null => cases h
  | bool b => cases h
  | num q => cases h
  | nan => cases h
  | inf s => cases h
  | str s => cases h
  | arr xs => cases h

theorem vtList_no_errors_values_eq_posts (fb : String → Option ℤ)
    (ts : List JSVal) (idx : ℕ)
    (h : (validateTransactionsList fb idx ts).1 = []) :
    (validateTransactionsList fb idx ts).2.1 =
      (validateTransactionsList fb idx ts).2.2 := by
  induction ts generalizing idx with
  | nil => rfl
  | cons t rest ih =>
    simp only [validateTransactionsList] at h ⊢
    cases hr : (validateTransaction fb t).1 with
    | ok v =>
      simp only [hr] at h ⊢
      rw [validateTransaction_ok_eq_post fb t v hr, ih (idx + 1) h]
    | err e => simp [hr] at h

/-- Counterexample to claim C9: `validateTransaction` mutates its argument
object in place — the post-state of the argument differs from the value
passed in (date reformatted, debit/credit/balance fields written). -/
theorem validateTransaction_mutates_argument :
    (validateTransaction (fun _ => none)
        (JSVal.obj [("date", .str "1/2/2020"), ("description", .str "x")])).2 =
      JSVal.obj [("date", .str "2020-02-01"), ("description", .str "x"),
        ("debit", .null), ("credit", .null), ("balance", .null)] ∧
    (validateTransaction (fun _ => none)
        (JSVal.obj [("date", .str "1/2/2020"), ("description", .str "x")])).2 ≠
      JSVal.obj [("date", .str "1/2/2020"), ("description", .str "x")] := by
  constructor
  · rfl
  · intro h
    rw [show (validateTransaction (fun _ => none)
        (JSVal.obj [("date", .str "1/2/2020"), ("description", .str "x")])).2 =
      JSVal.obj [("date", .str "2020-02-01"), ("description", .str "x"),
        ("debit", .null), ("credit", .null), ("balance", .null)] from rfl] at h
    injection h with h1
    have := congrArg List.length h1
    simp at this

/-- Claim C9 as amended: the validators never throw (they return structured
results by construction) but normalize IN PLACE: the success value of
`validateTransaction` is the argument object itself after mutation, only
the date/debit/credit/balance fields are touched, and the success value of
`validateAccountTransactions` is the list of mutated argument elements. -/
theorem validators_in_place (fb : String → Option ℤ) :
    (∀ fs v, (validateTransaction fb (.obj fs)).1 = .ok v →
      v = (validateTransaction fb (.obj fs)).2) ∧
    (∀ fs, ∃ fs', (validateTransaction fb (.obj fs)).2 = .obj fs' ∧
      ∀ k, "date" ≠ k → "debit" ≠ k → "credit" ≠ k → "balance" ≠ k →
        getF fs' k = getF fs k) ∧
    (∀ ts v post, validateAccountTransactions fb (.arr ts) = (.ok v, post) →
      v = post) := by
  refine ⟨fun fs v h => validateTransaction_ok_eq_post fb (.obj fs) v h,
    fun fs => ?_, fun ts v post h => ?_⟩
  · refine ⟨(vtCore fb fs).2, ?_, fun k h1 h2 h3 h4 =>
      vtCore_getF_frame fb fs k h1 h2 h3 h4⟩
    simp only [validateTransaction]
    by_cases hc : (vtCore fb fs).1 = []
    · rw [if_pos hc]
    · rw [if_neg hc]
  · simp only [validateAccountTransactions] at h
    by_cases hc : (validateTransactionsList fb 0 ts).1 = []
    · rw [if_pos hc] at h
      injection h with h1 h2
      injection h1 with h1
      rw [← h1, ← h2]
      exact congrArg JSVal.arr (vtList_no_errors_values_eq_posts fb ts 0 hc)
    · rw [if_neg hc] at h
      injection h with h1 h2
      cases h1

/-- Witness for the amended C9 at a concrete transaction whose date gets
reformatted in place. -/
theorem validators_in_place_witness :
    JSVal.obj [("date", .str "2020-02-01"), ("description", .str "x"),
        ("debit", .null), ("credit", .null), ("balance", .null)] =
      (validateTransaction (fun _ => none)
        (JSVal.obj [("date", .str "1/2/2020"), ("description", .str "x")])).2 :=
  (validators_in_place (fun _ => none)).1
    [("date", .str "1/2/2020"), ("description", .str "x")]
    (JSVal.obj [("date", .str "2020-02-01"), ("description", .str "x"),
      ("debit", .null), ("credit", .null), ("balance", .null)])
    (by rfl)


theorem storeGet_storeSet_same (st : Store) (k : String) (j : Job) :
    storeGet (storeSet st k j) k = some j := by
  induction st with
  | nil => simp [storeSet, storeGet]
  | cons p rest ih =>
    rcases p with ⟨k0, j0⟩
    by_cases h : k0 = k <;> simp [storeSet, storeGet, h, ih]

theorem storeGet_storeSet_ne (st : Store) (k k' : String) (j : Job)
    (h : k ≠ k') : storeGet (storeSet st k j) k' = storeGet st k' := by
  induction st with
  | nil => simp [storeSet, storeGet, h]
  | cons p rest ih =>
    rcases p with ⟨k0, j0⟩
    by_cases h0 : k0 = k
    · subst h0; simp [storeSet, storeGet, h]
    · simp [storeSet, storeGet, h0, ih]

/-- Claim C2: `updateJobStatus` succeeds exactly along the four FSM edges
UPLOADED→PROCESSING, UPLOADED→FAILED, PROCESSING→PROCESSED,
PROCESSING→FAILED; on any other (current, attempted) pair it throws an
invalid-transition error naming both states and leaves the store — hence
the stored job, its data and its timestamps — unchanged. -/
theorem updateJobStatus_fsm (st : Store) (now : ℤ) (jobId : String)
    (job : Job) (status : JobStatus) (extra : AdditionalData)
    (hid : jobId ≠ "") (hj : storeGet st jobId = some job) :
    (status ∈ validTransitions job.status ↔
      (job.status = .uploaded ∧ status = .processing) ∨
      (job.status = .uploaded ∧ status = .failed) ∨
      (job.status = .processing ∧ status = .processed) ∨
      (job.status = .processing ∧ status = .failed)) ∧
    (status ∈ validTransitions job.status →
      updateJobStatus st now jobId status extra =
        .ok (storeSet st jobId (applyUpdate job now status extra))) ∧
    (status ∉ validTransitions job.status →
      updateJobStatus st now jobId status extra =
        .error ("Failed to update job status: " ++
          transitionErrMsg job.status status) ∧
      effectiveStore (updateJobStatus st now jobId status extra) st = st ∧
      strContains (transitionErrMsg job.status status) job.status.toStr = true ∧
      strContains (transitionErrMsg job.status status) status.toStr = true) := by
  refine ⟨?_, ?_, ?_⟩
  · cases hjs : job.status <;> cases status <;> simp [validTransitions]
  · intro hmem
    simp only [updateJobStatus, hj]
    rw [if_neg hid, if_pos hmem]
  · intro hnmem
    have herr : updateJobStatus st now jobId status extra =
        .error ("Failed to update job status: " ++
          transitionErrMsg job.status status) := by
      simp only [updateJobStatus, hj]
      rw [if_neg hid, if_neg hnmem]
    refine ⟨herr, by rw [herr]; rfl, ?_, ?_⟩
    · cases hjs : job.status <;> cases status <;> decide
    · cases hjs : job.status <;> cases status <;> decide

/-- Witness for C2: updating a PROCESSED (terminal) job to PROCESSING is
rejected with the invalid-transition error and the store is untouched. -/
theorem updateJobStatus_fsm_witness :
    updateJobStatus [("j1", ⟨"j1", "f.pdf", "k", .processed, none, .null, none, 0, 0⟩)]
        5 "j1" .processing ⟨none, none, none⟩ =
      .error ("Failed to update job status: " ++
        transitionErrMsg .processed .processing) ∧
    effectiveStore
        (updateJobStatus [("j1", ⟨"j1", "f.pdf", "k", .processed, none, .null, none, 0, 0⟩)]
          5 "j1" .processing ⟨none, none, none⟩)
        [("j1", ⟨"j1", "f.pdf", "k", .processed, none, .null, none, 0, 0⟩)] =
      [("j1", ⟨"j1", "f.pdf", "k", .processed, none, .null, none, 0, 0⟩)] ∧
    strContains (transitionErrMsg .processed .processing)
      (JobStatus.processed).toStr = true ∧
    strContains (transitionErrMsg .processed .processing)
      (JobStatus.processing).toStr = true :=
  (updateJobStatus_fsm [("j1", ⟨"j1", "f.pdf", "k", .processed, none, .null, none, 0, 0⟩)]
      5 "j1" ⟨"j1", "f.pdf", "k", .processed, none, .null, none, 0, 0⟩
      .processing ⟨none, none, none⟩ (by decide) (by rfl)).2.2 (by decide)


/-- Claim C3: `processStatement` runs no pipeline stage unless the job
exists and is UPLOADED — a missing job fails with the job-not-found error,
a job in any other status fails with the invalid-status error naming the
current status, and in both cases the store is left unchanged and no
collaborator is invoked. -/
theorem processStatement_preconditions (env : PipelineEnv) (st : Store)
    (now : ℤ) (jobId : String) (hid : jobId ≠ "") :
    (storeGet st jobId = none →
      processStatement env st now jobId =
        ⟨.error (.jobNotFound jobId), st, []⟩) ∧
    (∀ job, storeGet st jobId = some job → job.status ≠ .uploaded →
      processStatement env st now jobId =
        ⟨.error (.invalidJobStatus jobId job.status), st, []⟩) := by
  constructor
  · intro h
    simp only [processStatement, h]
    rw [if_neg hid]
  · intro job hj hs
    simp only [processStatement, hj]
    rw [if_neg hid, if_pos hs]

/-- Witness for C3: a store holding one PROCESSING job rejects a second
process call with the invalid-status error, untouched store, no calls. -/
theorem processStatement_preconditions_witness :
    processStatement
        ⟨.ok (), .ok (), .error "x", false, false, fun _ => none⟩
        [("j1", ⟨"j1", "f.pdf", "k", .processing, none, .null, none, 0, 0⟩)]
        7 "j1" =
      ⟨.error (.invalidJobStatus "j1" JobStatus.processing),
        [("j1", ⟨"j1", "f.pdf", "k", .processing, none, .null, none, 0, 0⟩)], []⟩ :=
  (processStatement_preconditions
      ⟨.ok (), .ok (), .error "x", false, false, fun _ => none⟩
      [("j1", ⟨"j1", "f.pdf", "k", .processing, none, .null, none, 0, 0⟩)]
      7 "j1" (by decide)).2
    ⟨"j1", "f.pdf", "k", .processing, none, .null, none, 0, 0⟩
    (by rfl) (by decide)


theorem listLeads_append (l m : List Char) : listLeads l (l ++ m) = true := by
  induction l with
  | nil => rfl
  | cons c rest ih => simp [listLeads, ih]

theorem strContains_append_right (a b : String) :
    strContains (a ++ b) a = true := by
  unfold strContains listHasRun
  have h : (a ++ b).toList = a.toList ++ b.toList := by
    simp [String.toList]
  rw [h, listLeads_append]
  simp

theorem handleProcessingError_spec (st : Store) (now : ℤ) (jobId : String)
    (j1 : Job) (msg : String) (hid : jobId ≠ "")
    (hj : storeGet st jobId = some j1) (hs : j1.status = .processing) :
    handleProcessingError st now jobId msg =
      storeSet st jobId (applyUpdate j1 now .failed ⟨none, none, some msg⟩) := by
  unfold handleProcessingError
  simp only [updateJobStatus, hj]
  rw [if_neg hid, if_pos (by rw [hs]; decide)]
  rfl

theorem processStages34_spec (env : PipelineEnv) (st1 : Store) (now : ℤ)
    (jobId : String) (calls : List CollabCall) (j1 : Job) (hid : jobId ≠ "")
    (hj1 : storeGet st1 jobId = some j1) (hs1 : j1.status = .processing) :
    ∀ e, (processStages34 env st1 now jobId calls).result = .error e →
      ∃ j', storeGet (processStages34 env st1 now jobId calls).store jobId =
          some j' ∧
        j'.status = .failed ∧ ∃ m, j'.errorMessage = some m := by
  intro e he
  simp only [processStages34] at he ⊢
  cases hg : env.geminiResult with
  | error ge =>
    simp only [hg] at he ⊢
    rw [handleProcessingError_spec st1 now jobId j1 _ hid hj1 hs1]
    exact ⟨_, storeGet_storeSet_same _ _ _, rfl, _, rfl⟩
  | ok nd =>
    simp only [hg] at he ⊢
    cases hv : validateNormalizedData env.dateFallback nd with
    | error ve =>
      simp only [hv] at he ⊢
      rw [handleProcessingError_spec st1 now jobId j1 _ hid hj1 hs1]
      exact ⟨_, storeGet_storeSet_same _ _ _, rfl, _, rfl⟩
    | ok nd' =>
      have hupd : updateJobStatus st1 now jobId .processed
          ⟨some (accountsLen nd'), some nd', none⟩ =
          .ok (storeSet st1 jobId (applyUpdate j1 now .processed
            ⟨some (accountsLen nd'), some nd', none⟩)) := by
        simp only [updateJobStatus, hj1]
        rw [if_neg hid, if_pos (by rw [hs1]; decide)]
      simp only [hv, hupd] at he
      cases he

/-- Claim C4: under the pipeline preconditions, every run that surfaces an
error has first moved the job to FAILED with an error message recorded;
in particular a storage retrieval failure records a message starting with
"Failed to retrieve" and rejects with the retrieval failure kind. -/
theorem processStatement_failure_records (env : PipelineEnv) (st : Store)
    (now : ℤ) (jobId : String) (job : Job) (hid : jobId ≠ "")
    (hj : storeGet st jobId = some job) (hs : job.status = .uploaded) :
    (∀ e, (processStatement env st now jobId).result = .error e →
      ∃ j', storeGet (processStatement env st now jobId).store jobId =
          some j' ∧
        j'.status = .failed ∧ ∃ m, j'.errorMessage = some m) ∧
    (∀ em, env.storageResult = .error em →
      (processStatement env st now jobId).result =
        .error (.s3RetrievalFailed jobId) ∧
      ∃ j', storeGet (processStatement env st now jobId).store jobId =
          some j' ∧
        j'.status = .failed ∧
        j'.errorMessage = some ("Failed to retrieve PDF from S3: " ++ em) ∧
        strContains ("Failed to retrieve PDF from S3: " ++ em)
          "Failed to retrieve" = true) := by
  have hnot : ¬(job.status ≠ JobStatus.uploaded) := fun h => h hs
  have hupd1 : updateJobStatus st now jobId .processing {} =
      .ok (storeSet st jobId (applyUpdate job now .processing {})) := by
    simp only [updateJobStatus, hj]
    rw [if_neg hid, if_pos (by rw [hs]; decide)]
  have hj1 : storeGet (storeSet st jobId (applyUpdate job now .processing {}))
      jobId = some (applyUpdate job now .processing {}) :=
    storeGet_storeSet_same _ _ _
  have hs1 : (applyUpdate job now .processing {}).status = .processing := rfl
  constructor
  · intro e he
    simp only [processStatement, hj] at he ⊢
    rw [if_neg hid, if_neg hnot, hupd1] at he ⊢
    cases hst : env.storageResult with
    | error em =>
      simp only [hst] at he ⊢
      rw [handleProcessingError_spec _ now jobId _ _ hid hj1 hs1]
      exact ⟨_, storeGet_storeSet_same _ _ _, rfl, _, rfl⟩
    | ok u =>
      simp only [hst] at he ⊢
      cases htx : env.textractResult with
      | error te =>
        simp only [htx] at he ⊢
        by_cases hdev : (env.isDevelopment && env.allowLegacy) = true
        · rw [if_pos hdev] at he ⊢
          exact processStages34_spec env _ now jobId _ _ hid hj1 hs1 e he
        · rw [if_neg hdev] at he ⊢
          rw [handleProcessingError_spec _ now jobId _ _ hid hj1 hs1]
          exact ⟨_, storeGet_storeSet_same _ _ _, rfl, _, rfl⟩
      | ok u2 =>
        simp only [htx] at he ⊢
        exact processStages34_spec env _ now jobId _ _ hid hj1 hs1 e he
  · intro em hst
    simp only [processStatement, hj]
    rw [if_neg hid, if_neg hnot, hupd1]
    simp only [hst]
    rw [handleProcessingError_spec _ now jobId _ _ hid hj1 hs1]
    exact ⟨trivial, _, storeGet_storeSet_same _ _ _, rfl, rfl,
      strContains_append_right "Failed to retrieve PDF from S3: " em⟩

/-- Witness for C4: a single UPLOADED job whose storage retrieval fails —
the run rejects with the retrieval failure kind and the stored job ends
FAILED with the "Failed to retrieve" message recorded. -/
theorem processStatement_failure_records_witness :
    (processStatement ⟨.error "boom", .ok (), .error "x", false, false, fun _ => none⟩
        [("j1", ⟨"j1", "f.pdf", "k", .uploaded, none, .null, none, 0, 0⟩)] 7 "j1").result =
      .error (.s3RetrievalFailed "j1") ∧
    ∃ j', storeGet (processStatement ⟨.error "boom", .ok (), .error "x", false, false, fun _ => none⟩
        [("j1", ⟨"j1", "f.pdf", "k", .uploaded, none, .null, none, 0, 0⟩)] 7 "j1").store "j1" =
        some j' ∧
      j'.status = .failed ∧
      j'.errorMessage = some ("Failed to retrieve PDF from S3: " ++ "boom") ∧
      strContains ("Failed to retrieve PDF from S3: " ++ "boom")
        "Failed to retrieve" = true :=
  (processStatement_failure_records
      ⟨.error "boom", .ok (), .error "x", false, false, fun _ => none⟩
      [("j1", ⟨"j1", "f.pdf", "k", .uploaded, none, .null, none, 0, 0⟩)] 7 "j1"
      ⟨"j1", "f.pdf", "k", .uploaded, none, .null, none, 0, 0⟩
      (by decide) (by rfl) (by rfl)).2 "boom" (by rfl)


theorem heapRead_heapWriteList_same (h : List (ℕ × JSVal)) (a : ℕ)
    (v w : JSVal) (hw : heapRead h a = some w) :
    heapRead (heapWriteList h a v) a = some v := by
  induction h with
  | nil => cases hw
  | cons p rest ih =>
    rcases p with ⟨b, u⟩
    by_cases hb : b = a
    · subst hb; simp [heapWriteList, heapRead]
    · simp only [heapRead, if_neg hb] at hw
      simp [heapWriteList, heapRead, hb, ih hw]

/-- Counterexample to claim C6: the copy returned by `getJobResult` shares
its nested `processedData` object with the store, so an external mutation
through that reference is observable in a later `getJobResult` call. -/
theorem getJobResult_nested_mutation_observable :
    observeProcessedData
        ⟨[("job-1", ⟨"job-1", "a.pdf", "k", .processed, some 1, some 0, none, 0, 0⟩)],
          [(0, .obj [("fileName", .str "a.pdf")])]⟩ "job-1" =
      some (.obj [("fileName", .str "a.pdf")]) ∧
    (getJobResultRef
        ⟨[("job-1", ⟨"job-1", "a.pdf", "k", .processed, some 1, some 0, none, 0, 0⟩)],
          [(0, .obj [("fileName", .str "a.pdf")])]⟩ "job-1").bind
      JobRef.processedData = some 0 ∧
    observeProcessedData
        (heapWrite
          ⟨[("job-1", ⟨"job-1", "a.pdf", "k", .processed, some 1, some 0, none, 0, 0⟩)],
            [(0, .obj [("fileName", .str "a.pdf")])]⟩
          0 (.obj [("fileName", .str "MUTATED")])) "job-1" =
      some (.obj [("fileName", .str "MUTATED")]) ∧
    (JSVal.obj [("fileName", .str "MUTATED")]) ≠
      (JSVal.obj [("fileName", .str "a.pdf")]) := by
  refine ⟨rfl, rfl, rfl, ?_⟩
  intro h
  injection h with h1
  have h2 := List.head_eq_of_cons_eq h1
  have h3 := congrArg Prod.snd h2
  simp only at h3
  injection h3 with h4
  have := congrArg String.length h4
  simp [String.length] at this

/-- Claim C6 as amended: `getJobResult` returns a fresh Job record whose
fields equal the stored ones (so reassigning top-level fields of the copy
cannot touch the store), but the nested `processedData` payload is carried
over by reference, so mutating it through the returned copy is observable
in every subsequent `getJobResult` of the same id. -/
theorem getJobResult_shallow_copy (s : HeapState) (jobId : String)
    (j : JobRef) (hj : refLookup s.store jobId = some j) :
    getJobResultRef s jobId = some (copyJobRef j) ∧
    (copyJobRef j).processedData = j.processedData ∧
    (∀ a v w, j.processedData = some a → heapRead s.heap a = some w →
      observeProcessedData (heapWrite s a v) jobId = some v) := by
  refine ⟨by simp [getJobResultRef, hj], rfl, fun a v w ha hw => ?_⟩
  simp only [observeProcessedData, heapWrite, getJobResultRef, refLookup, hj,
    Option.map_some', Option.some_bind, copyJobRef, ha]
  exact heapRead_heapWriteList_same s.heap a v w hw

/-- Witness for the amended C6 at the concrete one-job state. -/
theorem getJobResult_shallow_copy_witness :
    observeProcessedData
        (heapWrite
          ⟨[("job-1", ⟨"job-1", "a.pdf", "k", .processed, some 1, some 0, none, 0, 0⟩)],
            [(0, .obj [("fileName", .str "a.pdf")])]⟩
          0 (.obj [("fileName", .str "CHANGED")])) "job-1" =
      some (.obj [("fileName", .str "CHANGED")]) :=
  (getJobResult_shallow_copy
      ⟨[("job-1", ⟨"job-1", "a.pdf", "k", .processed, some 1, some 0, none, 0, 0⟩)],
        [(0, .obj [("fileName", .str "a.pdf")])]⟩ "job-1"
      ⟨"job-1", "a.pdf", "k", .processed, some 1, some 0, none, 0, 0⟩
      (by rfl)).2.2 0 (.obj [("fileName", .str "CHANGED")])
    (.obj [("fileName", .str "a.pdf")]) rfl rfl


theorem storeDelete_append_notmem (pre : Store) (k : String) (j : Job)
    (post : Store) (h : ∀ q ∈ pre, (q : String × Job).1 ≠ k) :
    storeDelete (pre ++ (k, j) :: post) k = (pre ++ post, true) := by
  induction pre with
  | nil => simp [storeDelete]
  | cons p rest ih =>
    rcases p with ⟨k0, j0⟩
    have hk0 : k0 ≠ k := h (k0, j0) (by simp)
    have ih' := ih (fun q hq => h q (by simp [hq]))
    simp [storeDelete, if_neg hk0, ih']

/-- Loop invariant of the cleanup sweep: iterating the snapshot of the
jobs behind position `p`, the live store keeps the already-visited prefix,
drops the eligible jobs among the next `max − p` snapshot entries, and
leaves everything beyond the per-sweep limit untouched. -/
theorem performLoop_store_eq (cfg : CleanupConfig) (now : ℤ) :
    ∀ (post pre : Store) (p : ℕ) (files : List String) (stats : CleanupStats),
    (∀ q ∈ post, (q : String × Job).2.jobId = q.1) →
    (∀ q ∈ post, (q : String × Job).1 ≠ "") →
    (∀ q ∈ pre, ∀ q' ∈ post, (q : String × Job).1 ≠ (q' : String × Job).1) →
    ((post.map Prod.fst).Nodup) →
    (performLoop cfg now (post.map (·.2)) p ⟨pre ++ post, files⟩ stats).1.store =
      pre ++ (post.take (cfg.maxJobsPerCleanup - p)).filter
        (fun q => !(shouldCleanupJob cfg q.2 now)) ++
      post.drop (cfg.maxJobsPerCleanup - p) := by
  intro post
  induction post with
  | nil => intro pre p files stats _ _ _ _; simp [performLoop]
  | cons q post' ih =>
    intro pre p files stats hcoh hne hdisj hnodup
    rcases q with ⟨k, j⟩
    by_cases hend : cfg.maxJobsPerCleanup ≤ p
    · have hz : cfg.maxJobsPerCleanup - p = 0 := by omega
      simp [performLoop, if_pos hend, hz]
    · have hn : cfg.maxJobsPerCleanup - p =
          (cfg.maxJobsPerCleanup - (p + 1)) + 1 := by omega
      have hjid : j.jobId = k := hcoh (k, j) (by simp)
      have hkne : k ≠ "" := hne (k, j) (by simp)
      have hprek : ∀ q ∈ pre, (q : String × Job).1 ≠ k :=
        fun q hq => hdisj q hq (k, j) (by simp)
      have hcoh' : ∀ q ∈ post', (q : String × Job).2.jobId = q.1 :=
        fun q hq => hcoh q (by simp [hq])
      have hne' : ∀ q ∈ post', (q : String × Job).1 ≠ "" :=
        fun q hq => hne q (by simp [hq])
      have hnodup' : (post'.map Prod.fst).Nodup := by
        simp only [List.map_cons, List.nodup_cons] at hnodup
        exact hnodup.2
      have hknotin : k ∉ post'.map Prod.fst := by
        simp only [List.map_cons, List.nodup_cons] at hnodup
        exact hnodup.1
      by_cases hsc : shouldCleanupJob cfg j now = true
      · have hdel : cleanupJob ⟨pre ++ (k, j) :: post', files⟩ j =
            .ok ⟨pre ++ post',
              if j.s3Key ≠ "" then files.filter (fun f => f ≠ j.s3Key)
              else files⟩ := by
          simp only [cleanupJob, deleteJob, hjid, if_neg hkne,
            storeDelete_append_notmem pre k j post' hprek]
        have hdisj' : ∀ q ∈ pre, ∀ q' ∈ post',
            (q : String × Job).1 ≠ (q' : String × Job).1 :=
          fun q hq q' hq' => hdisj q hq q' (by simp [hq'])
        have hstep := ih pre (p + 1)
          (if j.s3Key ≠ "" then files.filter (fun f => f ≠ j.s3Key) else files)
          { stats with
            jobsProcessed := stats.jobsProcessed + 1
            jobsDeleted := stats.jobsDeleted + 1
            filesDeleted := stats.filesDeleted + 1 }
          hcoh' hne' hdisj' hnodup'
        simp only [List.map_cons, performLoop, if_neg hend, hsc,
          eq_self_iff_true, if_true, hdel]
        rw [hstep, hn]
        simp [List.take_succ_cons, List.filter_cons, hsc]
      · have hscf : shouldCleanupJob cfg j now = false := by
          simp only [Bool.not_eq_true] at hsc
          exact hsc
        have hdisj' : ∀ q ∈ pre ++ [(k, j)], ∀ q' ∈ post',
            (q : String × Job).1 ≠ (q' : String × Job).1 := by
          intro q hq q' hq'
          rcases List.mem_append.mp hq with hq1 | hq1
          · exact hdisj q hq1 q' (by simp [hq'])
          · have hqe : q = (k, j) := by simpa using hq1
            subst hqe
            have hcon' : ¬(k = q'.1) := by
              intro hk
              exact hknotin (hk ▸ List.mem_map_of_mem Prod.fst hq')
            exact hcon'
        have hstep := ih (pre ++ [(k, j)]) (p + 1) files
          { stats with jobsProcessed := stats.jobsProcessed + 1 }
          hcoh' hne' hdisj' hnodup'
        simp only [List.map_cons, performLoop, if_neg hend, hscf,
          Bool.false_eq_true, if_false]
        rw [show pre ++ (k, j) :: post' = (pre ++ [(k, j)]) ++ post' by simp]
        rw [hstep, hn]
        simp [List.take_succ_cons, List.filter_cons, hscf]


/-- Claim C7: a sweep deletes exactly the jobs that, within the per-sweep
maximum, are PROCESSED and older than the completed retention or FAILED and
older than the failed retention; UPLOADED and PROCESSING jobs are never
deleted by a sweep, regardless of age. -/
theorem performCleanup_policy (cfg : CleanupConfig) (now : ℤ) (s : CleanState)
    (hcoh : ∀ q ∈ s.store, (q : String × Job).2.jobId = q.1)
    (hne : ∀ q ∈ s.store, (q : String × Job).1 ≠ "")
    (hnodup : (s.store.map Prod.fst).Nodup) :
    (performCleanup cfg now s).1.store =
      (s.store.take cfg.maxJobsPerCleanup).filter
        (fun q => !(shouldCleanupJob cfg q.2 now)) ++
      s.store.drop cfg.maxJobsPerCleanup ∧
    (∀ job : Job, shouldCleanupJob cfg job now = true ↔
      (job.status = .processed ∧
        now - job.updatedAt > cfg.completedJobRetentionMs) ∨
      (job.status = .failed ∧ now - job.updatedAt > cfg.failedJobRetentionMs)) ∧
    (∀ q ∈ s.store,
      ((q : String × Job).2.status = .uploaded ∨ q.2.status = .processing) →
      q ∈ (performCleanup cfg now s).1.store) := by
  have hmain : (performCleanup cfg now s).1.store =
      (s.store.take cfg.maxJobsPerCleanup).filter
        (fun q => !(shouldCleanupJob cfg q.2 now)) ++
      s.store.drop cfg.maxJobsPerCleanup := by
    have h0 := performLoop_store_eq cfg now s.store [] 0 s.files {} hcoh hne
      (fun q hq => absurd hq (List.not_mem_nil q)) hnodup
    simpa [performCleanup, getAllJobs] using h0
  refine ⟨hmain, ?_, ?_⟩
  · intro job
    cases hstat : job.status <;> simp [shouldCleanupJob, hstat]
  · intro q hq hstatus
    rw [hmain]
    rw [← List.take_append_drop cfg.maxJobsPerCleanup s.store] at hq
    rcases List.mem_append.mp hq with h1 | h1
    · refine List.mem_append_left _ (List.mem_filter.mpr ⟨h1, ?_⟩)
      rcases hstatus with hs | hs <;> simp [shouldCleanupJob, hs]
    · exact List.mem_append_right _ h1

/-- Witness for C7: with a 24h completed retention and a 25h-old PROCESSED
job next to an equally old UPLOADED job, the sweep removes exactly the
PROCESSED one. -/
theorem performCleanup_policy_witness :
    (performCleanup ⟨86400000, 604800000, 3600000, 100⟩ 90000000
        ⟨[("a", ⟨"a", "a.pdf", "ka", .processed, some 1, .null, none, 0, 0⟩),
          ("b", ⟨"b", "b.pdf", "kb", .uploaded, none, .null, none, 0, 0⟩)],
          ["ka", "kb"]⟩).1.store =
      ([("a", ⟨"a", "a.pdf", "ka", .processed, some 1, .null, none, 0, 0⟩),
        ("b", ⟨"b", "b.pdf", "kb", .uploaded, none, .null, none, 0, 0⟩)].take 100).filter
        (fun q => !(shouldCleanupJob ⟨86400000, 604800000, 3600000, 100⟩
          q.2 90000000)) ++
      [("a", ⟨"a", "a.pdf", "ka", .processed, some 1, .null, none, 0, 0⟩),
        ("b", ⟨"b", "b.pdf", "kb", .uploaded, none, .null, none, 0, 0⟩)].drop 100 :=
  (performCleanup_policy ⟨86400000, 604800000, 3600000, 100⟩ 90000000
      ⟨[("a", ⟨"a", "a.pdf", "ka", .processed, some 1, .null, none, 0, 0⟩),
        ("b", ⟨"b", "b.pdf", "kb", .uploaded, none, .null, none, 0, 0⟩)],
        ["ka", "kb"]⟩
      (by decide) (by decide) (by decide)).1


/-- Claim C10: `cleanupJobById` deletes any existing job regardless of its
status (there is no status check), removing its stored file when a storage
key is present and then its store entry, returning true; a missing job id
returns false with no error and no state change. -/
theorem cleanupJobById_spec (s : CleanState) (jobId : String)
    (hid : jobId ≠ "") :
    (storeGet s.store jobId = none → cleanupJobById s jobId = .ok (false, s)) ∧
    (∀ job, storeGet s.store jobId = some job → job.jobId ≠ "" →
      cleanupJobById s jobId = .ok (true,
        ⟨(storeDelete s.store job.jobId).1,
          if job.s3Key ≠ "" then s.files.filter (fun k => k ≠ job.s3Key)
          else s.files⟩)) := by
  constructor
  · intro h
    simp only [cleanupJobById, h]
    rw [if_neg hid]
  · intro job hj hjobid
    simp only [cleanupJobById, hj, cleanupJob, deleteJob]
    rw [if_neg hid, if_neg hjobid]

/-- Witness for C10: an UPLOADED job — which the scheduled sweep never
touches — is deleted on demand together with its stored file. -/
theorem cleanupJobById_spec_witness :
    cleanupJobById
        ⟨[("u1", ⟨"u1", "u.pdf", "ku", .uploaded, none, .null, none, 0, 0⟩)],
          ["ku", "kx"]⟩ "u1" =
      .ok (true,
        ⟨(storeDelete
            [("u1", ⟨"u1", "u.pdf", "ku", .uploaded, none, .null, none, 0, 0⟩)]
            "u1").1,
          if ("ku" : String) ≠ "" then ["ku", "kx"].filter (fun k => k ≠ "ku")
          else ["ku", "kx"]⟩) :=
  (cleanupJobById_spec
      ⟨[("u1", ⟨"u1", "u.pdf", "ku", .uploaded, none, .null, none, 0, 0⟩)],
        ["ku", "kx"]⟩ "u1" (by decide)).2
    ⟨"u1", "u.pdf", "ku", .uploaded, none, .null, none, 0, 0⟩ (by rfl) (by decide)


/-- Element lemma for the sanitizer: a sanitized transaction carries exactly
the Transaction field set, and each field is the truthy-or-null projection
of the corresponding input property. -/
theorem sanitizeTransaction_rel (t t' : JSVal)
    (h : sanitizeTransaction t = .ok t') :
    specTransactionShape t' = true ∧
    ∀ k ∈ transactionFieldKeys, ∃ v, jsGet t k = .ok v ∧
      ∃ tfs, t' = .obj tfs ∧ getF tfs k = orNull v := by
  cases t with
  | null => cases h
  | undefined => cases h
  | obj tfs0 =>
    have he : sanitizeTransaction (.obj tfs0) =
        .ok (.obj [("date", orNull (getF tfs0 "date")),
          ("description", orNull (getF tfs0 "description")),
          ("debit", orNull (getF tfs0 "debit")),
          ("credit", orNull (getF tfs0 "credit")),
          ("balance", orNull (getF tfs0 "balance"))]) := rfl
    rw [he] at h
    injection h with h1
    subst h1
    refine ⟨rfl, ?_⟩
    intro k hk
    fin_cases hk <;> exact ⟨_, rfl, _, rfl, rfl⟩
  | bool b =>
    rw [show sanitizeTransaction (.bool b) = .ok (.obj [("date", .null),
      ("description", .null), ("debit", .null), ("credit", .null),
      ("balance", .null)]) from rfl] at h
    injection h with h1
    subst h1
    refine ⟨rfl, ?_⟩
    intro k hk
    fin_cases hk <;> exact ⟨_, rfl, _, rfl, rfl⟩
  | num q =>
    rw [show sanitizeTransaction (.num q) = .ok (.obj [("date", .null),
      ("description", .null), ("debit", .null), ("credit", .null),
      ("balance", .null)]) from rfl] at h
    injection h with h1
    subst h1
    refine ⟨rfl, ?_⟩
    intro k hk
    fin_cases hk <;> exact ⟨_, rfl, _, rfl, rfl⟩
  | nan =>
    rw [show sanitizeTransaction .nan = .ok (.obj [("date", .null),
      ("description", .null), ("debit", .null), ("credit", .null),
      ("balance", .null)]) from rfl] at h
    injection h with h1
    subst h1
    refine ⟨rfl, ?_⟩
    intro k hk
    fin_cases hk <;> exact ⟨_, rfl, _, rfl, rfl⟩
  | inf s =>
    rw [show sanitizeTransaction (.inf s) = .ok (.obj [("date", .null),
      ("description", .null), ("debit", .null), ("credit", .null),
      ("balance", .null)]) from rfl] at h
    injection h with h1
    subst h1
    refine ⟨rfl, ?_⟩
    intro k hk
    fin_cases hk <;> exact ⟨_, rfl, _, rfl, rfl⟩
  | str s =>
    rw [show sanitizeTransaction (.str s) = .ok (.obj [("date", .null),
      ("description", .null), ("debit", .null), ("credit", .null),
      ("balance", .null)]) from rfl] at h
    injection h with h1
    subst h1
    refine ⟨rfl, ?_⟩
    intro k hk
    fin_cases hk <;> exact ⟨_, rfl, _, rfl, rfl⟩
  | arr xs =>
    rw [show sanitizeTransaction (.arr xs) = .ok (.obj [("date", .null),
      ("description", .null), ("debit", .null), ("credit", .null),
      ("balance", .null)]) from rfl] at h
    injection h with h1
    subst h1
    refine ⟨rfl, ?_⟩
    intro k hk
    fin_cases hk <;> exact ⟨_, rfl, _, rfl, rfl⟩

theorem sanitizeTransactionList_shape (ts outs : List JSVal)
    (h : sanitizeTransactionList ts = .ok outs) :
    outs.all specTransactionShape = true := by
  induction ts generalizing outs with
  | nil =>
    cases h
    rfl
  | cons t rest ih =>
    simp only [sanitizeTransactionList] at h
    cases h1 : sanitizeTransaction t with
    | error e => rw [h1] at h; cases h
    | ok t' =>
      rw [h1] at h
      cases h2 : sanitizeTransactionList rest with
      | error e => rw [h2] at h; cases h
      | ok rest' =>
        rw [h2] at h
        injection h with h3
        subst h3
        simp only [List.all_cons, Bool.and_eq_true]
        exact ⟨(sanitizeTransaction_rel t t' h1).1, ih rest' h2⟩

theorem sanitizeTransactions_shape (v w : JSVal)
    (h : sanitizeTransactions v = .ok w) :
    ∃ ts', w = .arr ts' ∧ ts'.all specTransactionShape = true := by
  cases v with
  | arr ts =>
    simp only [sanitizeTransactions] at h
    cases h1 : sanitizeTransactionList ts with
    | error e => rw [h1] at h; cases h
    | ok outs =>
      rw [h1] at h
      injection h with h2
      exact ⟨outs, h2.symm, sanitizeTransactionList_shape ts outs h1⟩
  | null => cases h; exact ⟨[], rfl, rfl⟩
  | undefined => cases h; exact ⟨[], rfl, rfl⟩
  | bool b => cases h; exact ⟨[], rfl, rfl⟩
  | num q => cases h; exact ⟨[], rfl, rfl⟩
  | nan => cases h; exact ⟨[], rfl, rfl⟩
  | inf s => cases h; exact ⟨[], rfl, rfl⟩
  | str s => cases h; exact ⟨[], rfl, rfl⟩
  | obj fs => cases h; exact ⟨[], rfl, rfl⟩


/-- Element lemma for the sanitizer: a sanitized account carries exactly the
BankAccount field set (with Transaction-shaped transactions), and each
scalar field is the truthy-or-null projection of the corresponding input
property. -/
theorem sanitizeAccount_rel (a a' : JSVal) (h : sanitizeAccount a = .ok a') :
    specAccountShape a' = true ∧
    ∀ k ∈ accountFieldKeys, k ≠ "transactions" →
      ∃ v, jsGet a k = .ok v ∧ ∃ afs', a' = .obj afs' ∧ getF afs' k = orNull v := by
  cases a with
  | null => cases h
  | undefined => cases h
  | obj afs =>
    have he : sanitizeAccount (.obj afs) =
        (sanitizeTransactions (jsOr (getF afs "transactions") (.arr []))).bind
          (fun tr' => .ok (.obj [("bankName", orNull (getF afs "bankName")),
            ("accountHolderName", orNull (getF afs "accountHolderName")),
            ("accountNumber", orNull (getF afs "accountNumber")),
            ("accountType", orNull (getF afs "accountType")),
            ("currency", orNull (getF afs "currency")),
            ("statementStartDate", orNull (getF afs "statementStartDate")),
            ("statementEndDate", orNull (getF afs "statementEndDate")),
            ("openingBalance", orNull (getF afs "openingBalance")),
            ("closingBalance", orNull (getF afs "closingBalance")),
            ("transactions", tr')])) := rfl
    rw [he] at h
    cases hst : sanitizeTransactions (jsOr (getF afs "transactions") (.arr [])) with
    | error e => rw [hst] at h; cases h
    | ok tr' =>
      rw [hst] at h
      injection h with h1
      subst h1
      obtain ⟨ts', hts, hall⟩ := sanitizeTransactions_shape _ _ hst
      subst hts
      constructor
      · simp only [specAccountShape, getF]
        simp [hall, accountFieldKeys]
      · intro k hk hne
        fin_cases hk <;>
          first
          | exact absurd rfl hne
          | exact ⟨_, rfl, _, rfl, rfl⟩
  | bool b =>
    rw [show sanitizeAccount (.bool b) = .ok (.obj [("bankName", .null),
      ("accountHolderName", .null), ("accountNumber", .null),
      ("accountType", .null), ("currency", .null),
      ("statementStartDate", .null), ("statementEndDate", .null),
      ("openingBalance", .null), ("closingBalance", .null),
      ("transactions", .arr [])]) from rfl] at h
    injection h with h1
    subst h1
    exact ⟨rfl, fun k hk hne => by
      fin_cases hk <;>
        first
        | exact absurd rfl hne
        | exact ⟨_, rfl, _, rfl, rfl⟩⟩
  | num q =>
    rw [show sanitizeAccount (.num q) = .ok (.obj [("bankName", .null),
      ("accountHolderName", .null), ("accountNumber", .null),
      ("accountType", .null), ("currency", .null),
      ("statementStartDate", .null), ("statementEndDate", .null),
      ("openingBalance", .null), ("closingBalance", .null),
      ("transactions", .arr [])]) from rfl] at h
    injection h with h1
    subst h1
    exact ⟨rfl, fun k hk hne => by
      fin_cases hk <;>
        first
        | exact absurd rfl hne
        | exact ⟨_, rfl, _, rfl, rfl⟩⟩
  | nan =>
    rw [show sanitizeAccount .nan = .ok (.obj [("bankName", .null),
      ("accountHolderName", .null), ("accountNumber", .null),
      ("accountType", .null), ("currency", .null),
      ("statementStartDate", .null), ("statementEndDate", .null),
      ("openingBalance", .null), ("closingBalance", .null),
      ("transactions", .arr [])]) from rfl] at h
    injection h with h1
    subst h1
    exact ⟨rfl, fun k hk hne => by
      fin_cases hk <;>
        first
        | exact absurd rfl hne
        | exact ⟨_, rfl, _, rfl, rfl⟩⟩
  | inf s =>
    rw [show sanitizeAccount (.inf s) = .ok (.obj [("bankName", .null),
      ("accountHolderName", .null), ("accountNumber", .null),
      ("accountType", .null), ("currency", .null),
      ("statementStartDate", .null), ("statementEndDate", .null),
      ("openingBalance", .null), ("closingBalance", .null),
      ("transactions", .arr [])]) from rfl] at h
    injection h with h1
    subst h1
    exact ⟨rfl, fun k hk hne => by
      fin_cases hk <;>
        first
        | exact absurd rfl hne
        | exact ⟨_, rfl, _, rfl, rfl⟩⟩
  | str s =>
    rw [show sanitizeAccount (.str s) = .ok (.obj [("bankName", .null),
      ("accountHolderName", .null), ("accountNumber", .null),
      ("accountType", .null), ("currency", .null),
      ("statementStartDate", .null), ("statementEndDate", .null),
      ("openingBalance", .null), ("closingBalance", .null),
      ("transactions", .arr [])]) from rfl] at h
    injection h with h1
    subst h1
    exact ⟨rfl, fun k hk hne => by
      fin_cases hk <;>
        first
        | exact absurd rfl hne
        | exact ⟨_, rfl, _, rfl, rfl⟩⟩
  | arr xs =>
    rw [show sanitizeAccount (.arr xs) = .ok (.obj [("bankName", .null),
      ("accountHolderName", .null), ("accountNumber", .null),
      ("accountType", .null), ("currency", .null),
      ("statementStartDate", .null), ("statementEndDate", .null),
      ("openingBalance", .null), ("closingBalance", .null),
      ("transactions", .arr [])]) from rfl] at h
    injection h with h1
    subst h1
    exact ⟨rfl, fun k hk hne => by
      fin_cases hk <;>
        first
        | exact absurd rfl hne
        | exact ⟨_, rfl, _, rfl, rfl⟩⟩


theorem except_bind_ok {ε α β : Type} (a : α) (f : α → Except ε β) :
    (Except.ok a >>= f : Except ε β) = f a := rfl

theorem sanitizeAccountList_rel (accs outs : List JSVal)
    (h : sanitizeAccountList accs = .ok outs) :
    outs.all specAccountShape = true ∧
    List.Forall₂ (fun a a' => ∀ k ∈ accountFieldKeys, k ≠ "transactions" →
      ∃ v, jsGet a k = .ok v ∧ ∃ afs', a' = .obj afs' ∧ getF afs' k = orNull v)
      accs outs := by
  induction accs generalizing outs with
  | nil =>
    cases h
    exact ⟨rfl, List.Forall₂.nil⟩
  | cons a rest ih =>
    simp only [sanitizeAccountList] at h
    cases h1 : sanitizeAccount a with
    | error e => rw [h1] at h; cases h
    | ok a' =>
      rw [h1] at h
      cases h2 : sanitizeAccountList rest with
      | error e => rw [h2] at h; cases h
      | ok rest' =>
        rw [h2] at h
        injection h with h3
        subst h3
        obtain ⟨hshape, hrel⟩ := sanitizeAccount_rel a a' h1
        obtain ⟨hall, hf2⟩ := ih rest' h2
        refine ⟨?_, List.Forall₂.cons hrel hf2⟩
        simp only [List.all_cons, Bool.and_eq_true]
        exact ⟨hshape, hall⟩

/-- Claim C8 as amended: every successful sanitizer output carries exactly
the BankStatementData/BankAccount/Transaction field sets (no unrecognized
or internal input field survives), and each recognized scalar field of an
account is the truthy-or-null projection of the corresponding input
property — a truthy input value is copied, an absent or falsy one becomes
null. -/
theorem sanitizeProcessedData_projection (pd out : JSVal)
    (h : sanitizeProcessedData pd = .ok out) :
    specStatementShape out = true ∧
    (∀ accsIn, jsGet pd "accounts" = .ok (.arr accsIn) →
      ∃ fnv accsOut,
        jsGet pd "fileName" = .ok fnv ∧
        out = .obj [("fileName", orNull fnv), ("accounts", .arr accsOut)] ∧
        List.Forall₂ (fun a a' => ∀ k ∈ accountFieldKeys, k ≠ "transactions" →
          ∃ v, jsGet a k = .ok v ∧
            ∃ afs', a' = .obj afs' ∧ getF afs' k = orNull v)
          accsIn accsOut) := by
  cases pd with
  | null => cases h
  | undefined => cases h
  | obj pfs =>
    simp only [sanitizeProcessedData, jsGet, except_bind_ok] at h
    cases hacc : getF pfs "accounts" with
    | arr accsIn =>
      rw [hacc] at h
      simp only [except_bind_ok] at h
      cases hl : sanitizeAccountList accsIn with
      | error e => rw [hl] at h; cases h
      | ok outs =>
        rw [hl] at h
        injection h with h1
        subst h1
        obtain ⟨hall, hf2⟩ := sanitizeAccountList_rel accsIn outs hl
        constructor
        · simp only [specStatementShape, getF]
          simp [hall]
        · intro accsIn' hacc'
          rw [jsGet, hacc] at hacc'
          injection hacc' with hacc''
          injection hacc'' with hacc3
          subst hacc3
          exact ⟨_, outs, rfl, rfl, hf2⟩
    | null =>
      rw [hacc] at h
      injection h with h1
      subst h1
      refine ⟨rfl, ?_⟩
      intro accsIn hacc'
      rw [jsGet, hacc] at hacc'
      injection hacc' with hacc''
      cases hacc''
    | undefined =>
      rw [hacc] at h
      injection h with h1
      subst h1
      refine ⟨rfl, ?_⟩
      intro accsIn hacc'
      rw [jsGet, hacc] at hacc'
      injection hacc' with hacc''
      cases hacc''
    | bool b =>
      rw [hacc] at h
      injection h with h1
      subst h1
      refine ⟨rfl, ?_⟩
      intro accsIn hacc'
      rw [jsGet, hacc] at hacc'
      injection hacc' with hacc''
      cases hacc''
    | num q =>
      rw [hacc] at h
      injection h with h1
      subst h1
      refine ⟨rfl, ?_⟩
      intro accsIn hacc'
      rw [jsGet, hacc] at hacc'
      injection hacc' with hacc''
      cases hacc''
    | nan =>
      rw [hacc] at h
      injection h with h1
      subst h1
      refine ⟨rfl, ?_⟩
      intro accsIn hacc'
      rw [jsGet, hacc] at hacc'
      injection hacc' with hacc''
      cases hacc''
    | inf s =>
      rw [hacc] at h
      injection h with h1
      subst h1
      refine ⟨rfl, ?_⟩
      intro accsIn hacc'
      rw [jsGet, hacc] at hacc'
      injection hacc' with hacc''
      cases hacc''
    | str s =>
      rw [hacc] at h
      injection h with h1
      subst h1
      refine ⟨rfl, ?_⟩
      intro accsIn hacc'
      rw [jsGet, hacc] at hacc'
      injection hacc' with hacc''
      cases hacc''
    | obj fs2 =>
      rw [hacc] at h
      injection h with h1
      subst h1
      refine ⟨rfl, ?_⟩
      intro accsIn hacc'
      rw [jsGet, hacc] at hacc'
      injection hacc' with hacc''
      cases hacc''
  | bool b =>
    cases h
    exact ⟨rfl, fun accsIn hacc' => by injection hacc' with h2; cases h2⟩
  | num q =>
    cases h
    exact ⟨rfl, fun accsIn hacc' => by injection hacc' with h2; cases h2⟩
  | nan =>
    cases h
    exact ⟨rfl, fun accsIn hacc' => by injection hacc' with h2; cases h2⟩
  | inf s =>
    cases h
    exact ⟨rfl, fun accsIn hacc' => by injection hacc' with h2; cases h2⟩
  | str s =>
    cases h
    exact ⟨rfl, fun accsIn hacc' => by injection hacc' with h2; cases h2⟩
  | arr xs =>
    cases h
    exact ⟨rfl, fun accsIn hacc' => by injection hacc' with h2; cases h2⟩


/-- Counterexample to claim C8: a recognized field holding the falsy value
0 is not copied into the sanitized output — `|| null` replaces it with
null (while the unrecognized `rawBlocks` field is indeed dropped). -/
theorem sanitize_nulls_falsy_recognized_field :
    sanitizeProcessedData (.obj [("fileName", .str "a.pdf"),
        ("accounts", .arr [.obj [("openingBalance", .num 0),
          ("rawBlocks", .str "SECRET")]])]) =
      .ok (.obj [("fileName", .str "a.pdf"),
        ("accounts", .arr [.obj [("bankName", .null),
          ("accountHolderName", .null), ("accountNumber", .null),
          ("accountType", .null), ("currency", .null),
          ("statementStartDate", .null), ("statementEndDate", .null),
          ("openingBalance", .null), ("closingBalance", .null),
          ("transactions", .arr [])]])]) ∧
    getF [("openingBalance", JSVal.num 0), ("rawBlocks", .str "SECRET")]
      "openingBalance" = JSVal.num 0 ∧
    JSVal.num 0 ≠ JSVal.null := by
  refine ⟨rfl, rfl, ?_⟩
  intro hc
  cases hc

/-- Witness for the amended C8 at the concrete input whose openingBalance
is 0 and which carries an internal rawBlocks field. -/
theorem sanitizeProcessedData_projection_witness :
    specStatementShape (.obj [("fileName", .str "a.pdf"),
      ("accounts", .arr [.obj [("bankName", .null),
        ("accountHolderName", .null), ("accountNumber", .null),
        ("accountType", .null), ("currency", .null),
        ("statementStartDate", .null), ("statementEndDate", .null),
        ("openingBalance", .null), ("closingBalance", .null),
        ("transactions", .arr [])]])]) = true :=
  (sanitizeProcessedData_projection
    (.obj [("fileName", .str "a.pdf"),
      ("accounts", .arr [.obj [("openingBalance", .num 0),
        ("rawBlocks", .str "SECRET")]])])
    (.obj [("fileName", .str "a.pdf"),
      ("accounts", .arr [.obj [("bankName", .null),
        ("accountHolderName", .null), ("accountNumber", .null),
        ("accountType", .null), ("currency", .null),
        ("statementStartDate", .null), ("statementEndDate", .null),
        ("openingBalance", .null), ("closingBalance", .null),
        ("transactions", .arr [])]])])
    (by rfl)).1

end Bank
